import Mathlib

/-!
Transcription service: a shallow embedding.

The Go packages `model`, `awsclient`, `processor`, `handler`, `config` and
`elevenlabs` of the transcription service are embedded as Lean functions.

* Go strings are Lean strings.  The path functions of the Go standard library
  (`filepath.Base`, `filepath.Ext`) work on bytes; the two bytes they look for,
  `/` and `.`, are ASCII, so on UTF-8 text the same functions on characters give
  the same result.
* Every call that leaves the process (DynamoDB, S3, the transcription API) is
  answered by an environment `Env`; its answer may depend on everything that
  happened before (the history of events), so every behaviour of the outside
  world in a sequential run is one `Env`.
* The state is a `World`: the DynamoDB table, the history of calls with their
  results, and a clock.
* `LoadConfig` reads the environment variables of the process, a function from
  names to values; `sendTranscriptionRequest` talks to a `Network` that answers
  the calls it makes outside its package.
* `log.Printf` has no effect on results or state and is left out.
-/

namespace Transcription

/-! ## Go errors -/

/-- A Go `error`: either a plain error with a message (`errors.New`, or an error
coming from an SDK), or `fmt.Errorf("<msg>: %w", cause)`. -/
inductive GoError where
  | new (msg : String)
  | wrap (msg : String) (cause : GoError)
deriving DecidableEq, Repr

/-- The method `Error()` of a Go error: its message. -/
def GoError.Error : GoError → String
  | .new msg => msg
  | .wrap msg cause => msg ++ ": " ++ cause.Error

/-- The function `errors.Unwrap`. -/
def GoError.Unwrap : GoError → Option GoError
  | .new _ => none
  | .wrap _ cause => some cause

deriving instance DecidableEq for Except

/-! ## Package model (internal/model/types.go) -/

/-- The Go type `TranscriptionStatus` is a string type. -/
abbrev TranscriptionStatus := String

def StatusPending : TranscriptionStatus := "PENDING"
def StatusInProgress : TranscriptionStatus := "IN_PROGRESS"
def StatusCompleted : TranscriptionStatus := "COMPLETED"
def StatusFailed : TranscriptionStatus := "FAILED"

/-- A clock reading (`time.Time`); `0` is the zero time. -/
abbrev Time := Nat

/-- The struct `TranscriptionItem`.  `ProcessingTime` is a `float64` number of
seconds in Go; here it is the measured duration in nanoseconds, of which Go
takes `.Seconds()`: the two have the same sign, and the code only tests the
sign.  A field tagged `omitempty` that holds its zero value is absent from the
stored item, and an absent attribute reads back as the zero value. -/
structure TranscriptionItem where
  FileIdentifier : String
  Status : TranscriptionStatus
  SourceBucket : String
  SourceKey : String
  TranscriptText : String := ""
  OutputLocation : String := ""
  ErrorMessage : String := ""
  CreatedAt : Time := 0
  UpdatedAt : Time := 0
  ProcessingTime : Int := 0
deriving DecidableEq, Repr

/-- The struct `ElevenLabsResponse`. -/
structure ElevenLabsResponse where
  ID : String
  Text : String
  Error : String := ""
  Success : Bool
deriving DecidableEq, Repr

/-! ## Go standard library: path/filepath and strings (Unix) -/

/-- The loop of `filepath.Ext`, walking from the last character to the first:
`rev` is what is left to visit (last character first), `acc` is the part of the
path already passed.  The loop stops at a separator (result `""`) and returns
`path[i:]` at the first dot. -/
def extLoop : List Char → List Char → List Char
  | [], _ => []
  | c :: rev, acc =>
    if c = '/' then []
    else if c = '.' then c :: acc
    else extLoop rev (c :: acc)

/-- The function `filepath.Ext`. -/
def Ext (path : String) : String :=
  ⟨extLoop path.data.reverse []⟩

/-- The function `filepath.Base` (Unix: no volume name). -/
def Base (path : String) : String :=
  if path = "" then "."
  else
    -- strip trailing slashes
    let stripped := (path.data.reverse.dropWhile (fun c => c = '/')).reverse
    -- find the last element
    let last := (stripped.reverse.takeWhile (fun c => c ≠ '/')).reverse
    -- if empty now, it had only slashes
    if last = [] then "/" else ⟨last⟩

/-- The function `unicode.ToLower` on one rune.  ASCII is spelled out; for the
other runes Go consults the Unicode tables, which are the argument
`unicodeLower`. -/
def toLowerRune (unicodeLower : Char → Char) (c : Char) : Char :=
  if c.toNat < 128 then c.toLower else unicodeLower c

/-- The function `strings.ToLower`. -/
def ToLower (unicodeLower : Char → Char) (s : String) : String :=
  ⟨s.data.map (toLowerRune unicodeLower)⟩

/-! ## Package handler (internal/handler/handler.go) -/

/-- The map literal `supportedExts` of `isValidAudioFile`. -/
def supportedExts : List (String × Bool) :=
  [(".aac", true), (".mp3", true), (".wav", true), (".flac", true), (".ogg", true),
   (".m4a", true)]

/-- The method `Handler.isValidAudioFile`: a key missing from a Go map reads as
the zero value `false`. -/
def isValidAudioFile (unicodeLower : Char → Char) (key : String) : Bool :=
  let ext := ToLower unicodeLower (Ext key)
  (supportedExts.lookup ext).getD false

structure S3Bucket where
  Name : String
deriving DecidableEq, Repr

structure S3Object where
  Key : String
  URLDecodedKey : String
deriving DecidableEq, Repr

structure S3Entity where
  Bucket : S3Bucket
  Object : S3Object
deriving DecidableEq, Repr

structure S3EventRecord where
  S3 : S3Entity
deriving DecidableEq, Repr

structure S3Event where
  Records : List S3EventRecord
deriving DecidableEq, Repr

/-- The loop `for i, record := range s3Event.Records` of `HandleS3Event`, over a
processor `processFile` acting on a state `σ`.  Both `continue` statements and
the end of the body go on with the next record. -/
def handleRecords {σ : Type} (unicodeLower : Char → Char)
    (processFile : String → String → σ → Option GoError × σ) :
    List S3EventRecord → σ → σ
  | [], s => s
  | record :: rest, s =>
    let bucket := record.S3.Bucket.Name
    let key := record.S3.Object.URLDecodedKey
    -- validate file extension
    if !isValidAudioFile unicodeLower key then
      handleRecords unicodeLower processFile rest s
    else
      -- process the file
      match processFile bucket key s with
      | (some _, s') => handleRecords unicodeLower processFile rest s'
      | (none, s') => handleRecords unicodeLower processFile rest s'

/-- The method `Handler.HandleS3Event`. -/
def HandleS3Event {σ : Type} (unicodeLower : Char → Char)
    (processFile : String → String → σ → Option GoError × σ)
    (s3Event : S3Event) (s : σ) : Option GoError × σ :=
  (none, handleRecords unicodeLower processFile s3Event.Records s)

/-- A processor that also writes down, in order, the arguments of every call
made to it. -/
def recording {σ : Type} (processFile : String → String → σ → Option GoError × σ) :
    String → String → σ × List (String × String) →
      Option GoError × (σ × List (String × String)) :=
  fun bucket key s =>
    ((processFile bucket key s.1).1, ((processFile bucket key s.1).2, s.2 ++ [(bucket, key)]))

/-! ## The outside world -/

/-- A call that leaves the process, with its arguments and the result the
caller got back. -/
inductive Event where
  | GetTranscriptionItem (fileIdentifier : String)
      (result : Except GoError (Option TranscriptionItem))
  | CreateTranscriptionItem (item : TranscriptionItem) (result : Option GoError)
  | UpdateTranscriptionItemStatus (fileIdentifier : String) (status : TranscriptionStatus)
      (transcriptText outputLocation errorMessage : String) (processingTime : Int)
      (result : Option GoError)
  | GeneratePresignedURL (bucket key : String) (expirationSeconds : Nat)
      (result : Except GoError String)
  | TranscribeAudio (audioURL : String) (result : Except GoError ElevenLabsResponse)
  | UploadText (bucket key content : String) (result : Option GoError)
deriving DecidableEq

/-- A value sent to DynamoDB: a string (`AttributeValueMemberS`), a number
(`AttributeValueMemberN`, which the code fills with `fmt.Sprintf("%f", ...)`), or
a timestamp, which the code sends as the string `time.Now().Format(time.RFC3339)`
and which is kept here as the clock reading it was formatted from. -/
inductive AttributeValue where
  | S (Value : String)
  | N (Value : Int)
  | T (Value : Time)
deriving DecidableEq, Repr

/-- A condition expression of a DynamoDB request.  The one condition modelled is
`attribute_exists(FileIdentifier)`: an item is stored under the key of the
request. -/
inductive Condition where
  | keyExists
deriving DecidableEq, Repr

/-- The request `dynamodb.UpdateItemInput` as the code fills it.  The update
expression `"SET #a = :a, #b = :b"` is kept as the list of its clauses
`[("#a", ":a"), ("#b", ":b")]`; the two Go maps are association lists.  The code
sets no `ConditionExpression`: the field keeps its zero value `nil`, here
`none`. -/
structure UpdateItemInput where
  TableName : String
  Key : String
  UpdateExpression : List (String × String)
  ExpressionAttributeNames : List (String × String)
  ExpressionAttributeValues : List (String × AttributeValue)
  ConditionExpression : Option Condition := none
deriving DecidableEq, Repr

/-- The text of an update expression. -/
def renderUpdateExpression (clauses : List (String × String)) : String :=
  "SET " ++ ", ".intercalate (clauses.map (fun c => c.1 ++ " = " ++ c.2))

/-- The DynamoDB table, keyed by the attribute `FileIdentifier`. -/
abbrev Table := String → Option TranscriptionItem

/-- DynamoDB `PutItem`: the item replaces whatever was stored under its key. -/
def Table.PutItem (t : Table) (item : TranscriptionItem) : Table :=
  fun k => if k = item.FileIdentifier then some item else t k

/-- One `SET` assignment on a stored item. -/
def setAttribute (item : TranscriptionItem) (name : String) (v : AttributeValue) :
    TranscriptionItem :=
  if name = "Status" then
    match v with
    | .S s => { item with Status := s }
    | _ => item
  else if name = "UpdatedAt" then
    match v with
    | .T t => { item with UpdatedAt := t }
    | _ => item
  else if name = "TranscriptText" then
    match v with
    | .S s => { item with TranscriptText := s }
    | _ => item
  else if name = "OutputLocation" then
    match v with
    | .S s => { item with OutputLocation := s }
    | _ => item
  else if name = "ErrorMessage" then
    match v with
    | .S s => { item with ErrorMessage := s }
    | _ => item
  else if name = "ProcessingTime" then
    match v with
    | .N n => { item with ProcessingTime := n }
    | _ => item
  else item

/-- The clauses of a request applied to an item, each placeholder looked up in
the maps of the request. -/
def applyClauses (req : UpdateItemInput) :
    List (String × String) → TranscriptionItem → TranscriptionItem
  | [], item => item
  | (n, v) :: rest, item =>
    match req.ExpressionAttributeNames.lookup n, req.ExpressionAttributeValues.lookup v with
    | some name, some val => applyClauses req rest (setAttribute item name val)
    | _, _ => applyClauses req rest item

/-- DynamoDB `UpdateItem`.  With no condition expression the attributes of the
stored item are edited, and when no item is stored under the key a new item is
made of the key and the assigned attributes.  With the condition
`attribute_exists(FileIdentifier)` a request for a key under which nothing is
stored changes nothing. -/
def Table.UpdateItem (t : Table) (req : UpdateItemInput) : Table :=
  match req.ConditionExpression, t req.Key with
  | some .keyExists, none => t
  | _, stored =>
    let old : TranscriptionItem :=
      match stored with
      | some item => item
      | none => { FileIdentifier := req.Key, Status := "", SourceBucket := "", SourceKey := "" }
    fun k => if k = req.Key then some (applyClauses req req.UpdateExpression old) else t k

/-- The state: the table, the calls made so far (oldest first), the clock. -/
structure World where
  table : Table
  trace : List Event
  now : Time

/-- The behaviour of the outside world.  Every answer may depend on the history
`World.trace` at the time of the call.

* `getItem`, `unmarshal`, `marshal`, `putItem`, `updateItem`: whether the SDK
  call fails, and with which error; a failed write leaves the table as it was.
* `presign`, `upload`: Modelled from the spec: the bodies of
  `S3Operations.GeneratePresignedURL` and `S3Operations.UploadText` are not in
  the source tree; by the specification the first returns a URL or fails, the
  second writes a text object or fails.
* `transcribe`: the result of `Client.TranscribeAudio`.
* `latency`: the time the next call takes. -/
structure Env where
  getItem : List Event → String → Option GoError
  unmarshal : List Event → TranscriptionItem → Option GoError
  marshal : List Event → TranscriptionItem → Option GoError
  putItem : List Event → TranscriptionItem → Option GoError
  updateItem : List Event → UpdateItemInput → Option GoError
  presign : List Event → String → String → Nat → Except GoError String
  transcribe : List Event → String → Except GoError ElevenLabsResponse
  upload : List Event → String → String → String → Option GoError
  latency : List Event → Nat

/-- The end of a call: it is appended to the history and its duration has
passed. -/
def World.record (env : Env) (w : World) (e : Event) : World :=
  { w with trace := w.trace ++ [e], now := w.now + env.latency w.trace }

/-! ## Package awsclient (internal/awsclient/dynamodb.go) -/

/-- The method `DynamoDBOperations.CreateTranscriptionItem`.  The event holds the
item as the caller passed it; the stored item has both timestamps set. -/
def CreateTranscriptionItem (env : Env) (item : TranscriptionItem) (w : World) :
    Option GoError × World :=
  -- set timestamps
  let now := w.now
  let stamped := { item with CreatedAt := now, UpdatedAt := now }
  match env.marshal w.trace stamped with
  | some err =>
    let r := some (GoError.wrap "failed to marshal item" err)
    (r, w.record env (.CreateTranscriptionItem item r))
  | none =>
    match env.putItem w.trace stamped with
    | some err =>
      let r := some (GoError.wrap "failed to put item in DynamoDB" err)
      (r, w.record env (.CreateTranscriptionItem item r))
    | none =>
      ((none : Option GoError),
        { w with table := w.table.PutItem stamped }.record env
          (.CreateTranscriptionItem item none))

/-- The request built by `UpdateTranscriptionItemStatus`; `now` is `time.Now()`. -/
def buildUpdateItemInput (tableName fileIdentifier : String) (status : TranscriptionStatus)
    (transcriptText outputLocation errorMessage : String) (processingTime : Int)
    (now : Time) : UpdateItemInput :=
  -- build update expression
  let updateExpression := [("#status", ":status"), ("#updatedAt", ":updatedAt")]
  let expressionAttributeNames := [("#status", "Status"), ("#updatedAt", "UpdatedAt")]
  let expressionAttributeValues :=
    [(":status", AttributeValue.S status), (":updatedAt", AttributeValue.T now)]
  -- add optional attributes if provided
  let (updateExpression, expressionAttributeNames, expressionAttributeValues) :=
    if transcriptText ≠ "" then
      (updateExpression ++ [("#transcriptText", ":transcriptText")],
        expressionAttributeNames ++ [("#transcriptText", "TranscriptText")],
        expressionAttributeValues ++ [(":transcriptText", AttributeValue.S transcriptText)])
    else (updateExpression, expressionAttributeNames, expressionAttributeValues)
  let (updateExpression, expressionAttributeNames, expressionAttributeValues) :=
    if outputLocation ≠ "" then
      (updateExpression ++ [("#outputLocation", ":outputLocation")],
        expressionAttributeNames ++ [("#outputLocation", "OutputLocation")],
        expressionAttributeValues ++ [(":outputLocation", AttributeValue.S outputLocation)])
    else (updateExpression, expressionAttributeNames, expressionAttributeValues)
  let (updateExpression, expressionAttributeNames, expressionAttributeValues) :=
    if errorMessage ≠ "" then
      (updateExpression ++ [("#errorMessage", ":errorMessage")],
        expressionAttributeNames ++ [("#errorMessage", "ErrorMessage")],
        expressionAttributeValues ++ [(":errorMessage", AttributeValue.S errorMessage)])
    else (updateExpression, expressionAttributeNames, expressionAttributeValues)
  let (updateExpression, expressionAttributeNames, expressionAttributeValues) :=
    if processingTime > 0 then
      (updateExpression ++ [("#processingTime", ":processingTime")],
        expressionAttributeNames ++ [("#processingTime", "ProcessingTime")],
        expressionAttributeValues ++ [(":processingTime", AttributeValue.N processingTime)])
    else (updateExpression, expressionAttributeNames, expressionAttributeValues)
  { TableName := tableName
    Key := fileIdentifier
    UpdateExpression := updateExpression
    ExpressionAttributeNames := expressionAttributeNames
    ExpressionAttributeValues := expressionAttributeValues }

/-- The method `DynamoDBOperations.UpdateTranscriptionItemStatus`. -/
def UpdateTranscriptionItemStatus (env : Env) (tableName fileIdentifier : String)
    (status : TranscriptionStatus) (transcriptText outputLocation errorMessage : String)
    (processingTime : Int) (w : World) : Option GoError × World :=
  let req := buildUpdateItemInput tableName fileIdentifier status transcriptText
    outputLocation errorMessage processingTime w.now
  -- update item in DynamoDB
  match env.updateItem w.trace req with
  | some err =>
    let r := some (GoError.wrap "failed to update item in DynamoDB" err)
    (r, w.record env (.UpdateTranscriptionItemStatus fileIdentifier status transcriptText
      outputLocation errorMessage processingTime r))
  | none =>
    ((none : Option GoError),
      { w with table := w.table.UpdateItem req }.record env
        (.UpdateTranscriptionItemStatus fileIdentifier status transcriptText
          outputLocation errorMessage processingTime none))

/-- The method `DynamoDBOperations.GetTranscriptionItem`. -/
def GetTranscriptionItem (env : Env) (fileIdentifier : String) (w : World) :
    Except GoError (Option TranscriptionItem) × World :=
  let r : Except GoError (Option TranscriptionItem) :=
    match env.getItem w.trace fileIdentifier with
    | some err => .error (GoError.wrap "failed to get item from DynamoDB" err)
    | none =>
      -- check if item was found
      match w.table fileIdentifier with
      | none => .ok none
      | some item =>
        -- unmarshal item
        match env.unmarshal w.trace item with
        | some err => .error (GoError.wrap "failed to unmarshal item" err)
        | none => .ok (some item)
  (r, w.record env (.GetTranscriptionItem fileIdentifier r))

/-- The method `S3Operations.GeneratePresignedURL`, answered by the
environment. -/
def GeneratePresignedURL (env : Env) (bucket key : String) (expirationSeconds : Nat)
    (w : World) : Except GoError String × World :=
  let r := env.presign w.trace bucket key expirationSeconds
  (r, w.record env (.GeneratePresignedURL bucket key expirationSeconds r))

/-- The method `S3Operations.UploadText`, answered by the environment. -/
def UploadText (env : Env) (bucket key content : String) (w : World) :
    Option GoError × World :=
  let r := env.upload w.trace bucket key content
  (r, w.record env (.UploadText bucket key content r))

/-- The method `Client.TranscribeAudio`, answered by the environment. -/
def TranscribeAudio (env : Env) (audioURL : String) (w : World) :
    Except GoError ElevenLabsResponse × World :=
  let r := env.transcribe w.trace audioURL
  (r, w.record env (.TranscribeAudio audioURL r))

/-! ## Package processor (internal/processor/processor.go) -/

/-- The configuration fields of the struct `Processor`; its clients are the
environment. -/
structure Processor where
  tableName : String
  outputBucket : String
deriving DecidableEq, Repr

/-- The output key of `ProcessFile`: `fmt.Sprintf("transcripts/%s.txt", extLess)`
with `extLess := baseName[:len(baseName)-len(filepath.Ext(baseName))]`. -/
def outputKey (key : String) : String :=
  let baseName := Base key
  let extLess : String :=
    ⟨baseName.data.take (baseName.data.length - (Ext baseName).data.length)⟩
  "transcripts/" ++ extLess ++ ".txt"

/-- The end of `ProcessFile`, after a successful transcription: the optional
upload and the final status update. -/
def finishProcessing (env : Env) (p : Processor) (key : String) (startTime : Time)
    (transcriptionResp : ElevenLabsResponse) (w : World) : Option GoError × World :=
  let fileID := key
  -- calculate processing time
  let processingTime : Int := (w.now : Int) - (startTime : Int)
  -- if output bucket is specified, store the transcript in S3
  let (outputLocation, w) : String × World :=
    if p.outputBucket ≠ "" ∧ transcriptionResp.Text ≠ "" then
      match UploadText env p.outputBucket (outputKey key) transcriptionResp.Text w with
      | (some _, w) => ("", w)
      | (none, w) => ("s3://" ++ p.outputBucket ++ "/" ++ outputKey key, w)
    else ("", w)
  -- update DynamoDB with successful result
  match UpdateTranscriptionItemStatus env p.tableName fileID StatusCompleted
      transcriptionResp.Text outputLocation "" processingTime w with
  | (_, w) => (none, w)

/-- The middle of `ProcessFile`, once the item is marked as in progress: the
pre-signed URL and the transcription call. -/
def transcribeFile (env : Env) (p : Processor) (bucket key : String) (startTime : Time)
    (w : World) : Option GoError × World :=
  let fileID := key
  -- generate a pre-signed URL for the audio file
  match GeneratePresignedURL env bucket key 3600 w with
  | (.error err, w) =>
    -- update DynamoDB to indicate failure
    match UpdateTranscriptionItemStatus env p.tableName fileID StatusFailed "" ""
        ("Failed to generate pre-signed URL: " ++ err.Error) 0 w with
    | (_, w) => (some (GoError.wrap "failed to generate pre-signed URL" err), w)
  | (.ok audioURL, w) =>
    -- call ElevenLabs API for transcription
    match TranscribeAudio env audioURL w with
    | (.error err, w) =>
      -- update DynamoDB to indicate failure
      match UpdateTranscriptionItemStatus env p.tableName fileID StatusFailed "" ""
          ("Transcription API error: " ++ err.Error) 0 w with
      | (_, w) => (some (GoError.wrap "transcription API error" err), w)
    | (.ok transcriptionResp, w) => finishProcessing env p key startTime transcriptionResp w

/-- The method `Processor.ProcessFile`. -/
def ProcessFile (env : Env) (p : Processor) (bucket key : String) (w : World) :
    Option GoError × World :=
  let startTime := w.now
  let fileID := key
  -- check if this file has already been processed
  match GetTranscriptionItem env fileID w with
  | (.error err, w) => (some (GoError.wrap "error checking for existing transcription" err), w)
  | (.ok (some existingItem), w) =>
    if existingItem.Status = StatusCompleted ∨ existingItem.Status = StatusInProgress then
      (none, w)
    else
      -- update existing item
      match UpdateTranscriptionItemStatus env p.tableName fileID StatusInProgress "" "" "" 0
          w with
      | (some err, w) => (some (GoError.wrap "failed to update DynamoDB item status" err), w)
      | (none, w) => transcribeFile env p bucket key startTime w
  | (.ok none, w) =>
    -- create new item
    let item : TranscriptionItem :=
      { FileIdentifier := fileID
        Status := StatusInProgress
        SourceBucket := bucket
        SourceKey := key }
    match CreateTranscriptionItem env item w with
    | (some err, w) => (some (GoError.wrap "failed to create DynamoDB item" err), w)
    | (none, w) => transcribeFile env p bucket key startTime w

/-- The calls made by one run of `ProcessFile` started in `w`, oldest first. -/
def runEvents (env : Env) (p : Processor) (bucket key : String) (w : World) : List Event :=
  (ProcessFile env p bucket key w).2.trace.drop w.trace.length

/-- The item stored under `key` after one run of `ProcessFile` started in `w`. -/
def finalRecord (env : Env) (p : Processor) (bucket key : String) (w : World) :
    Option TranscriptionItem :=
  (ProcessFile env p bucket key w).2.table key

/-! ## Reading the table and the history -/

/-- The item an update is applied to when nothing is stored under the key. -/
def blankItem (key : String) : TranscriptionItem :=
  { FileIdentifier := key, Status := "", SourceBucket := "", SourceKey := "" }

/-- The net effect on an item of the request built by
`UpdateTranscriptionItemStatus` (see `applyClauses_build`). -/
def updateFields (old : TranscriptionItem) (status : TranscriptionStatus)
    (transcriptText outputLocation errorMessage : String) (processingTime : Int)
    (now : Time) : TranscriptionItem :=
  { old with
    Status := status
    UpdatedAt := now
    TranscriptText := if transcriptText ≠ "" then transcriptText else old.TranscriptText
    OutputLocation := if outputLocation ≠ "" then outputLocation else old.OutputLocation
    ErrorMessage := if errorMessage ≠ "" then errorMessage else old.ErrorMessage
    ProcessingTime := if processingTime > 0 then processingTime else old.ProcessingTime }

/-- The table after a status update whose result was `result`: a failed update
leaves the table as it was. -/
def tableAfterUpdate (t : Table) (result : Option GoError) (req : UpdateItemInput) : Table :=
  match result with
  | none => t.UpdateItem req
  | some _ => t

/-- A call to `CreateTranscriptionItem`. -/
def Event.isCreate : Event → Bool
  | .CreateTranscriptionItem _ _ => true
  | _ => false

/-- A call to `UpdateTranscriptionItemStatus`. -/
def Event.isUpdate : Event → Bool
  | .UpdateTranscriptionItemStatus _ _ _ _ _ _ _ => true
  | _ => false

/-- A call to `GeneratePresignedURL`. -/
def Event.isPresign : Event → Bool
  | .GeneratePresignedURL _ _ _ _ => true
  | _ => false

/-- A call to `TranscribeAudio`. -/
def Event.isTranscribe : Event → Bool
  | .TranscribeAudio _ _ => true
  | _ => false

/-- A call to `UploadText`. -/
def Event.isUpload : Event → Bool
  | .UploadText _ _ _ _ => true
  | _ => false

/-- A call to the object store or to the transcription service. -/
def Event.isExternal (e : Event) : Bool :=
  e.isPresign || e.isTranscribe || e.isUpload

/-- A write to the state store (create or update) that failed. -/
def Event.writeFailed : Event → Bool
  | .CreateTranscriptionItem _ (some _) => true
  | .UpdateTranscriptionItemStatus _ _ _ _ _ _ (some _) => true
  | _ => false

/-! ## The paths through `ProcessFile`

A `Path` names the answers the outside world gave during one run; the events,
the result and the final table of the run are functions of it
(`ProcessFile_path`). -/

/-- What happened after the item was marked as in progress: the answers of the
outside world, the time `tm` of the last status update and its result `upd`. -/
inductive Tail where
  | presignFailed (err : GoError) (tm : Time) (upd : Option GoError)
  | transcribeFailed (audioURL : String) (err : GoError) (tm : Time) (upd : Option GoError)
  | transcribed (audioURL : String) (resp : ElevenLabsResponse)
      (up : Option (Option GoError)) (processingTime : Int) (tm : Time)
      (upd : Option GoError)

/-- One run of `ProcessFile`. -/
inductive Path where
  | lookupFailed (err : GoError)
  | skipped (existingItem : TranscriptionItem)
  | markFailed (existingItem : Option TranscriptionItem) (err : GoError)
  | marked (existingItem : Option TranscriptionItem) (tm : Time) (tail : Tail)

/-- The output location after the upload step; `up` is `none` when no upload was
attempted and the result of `UploadText` otherwise. -/
def outputLocationOf (p : Processor) (key : String) : Option (Option GoError) → String
  | some none => "s3://" ++ p.outputBucket ++ "/" ++ outputKey key
  | _ => ""

/-- The upload event, if an upload was attempted. -/
def uploadEvents (p : Processor) (key : String) (resp : ElevenLabsResponse) :
    Option (Option GoError) → List Event
  | none => []
  | some u => [.UploadText p.outputBucket (outputKey key) resp.Text u]

def Tail.events (p : Processor) (bucket key : String) : Tail → List Event
  | .presignFailed err _ upd =>
    [.GeneratePresignedURL bucket key 3600 (.error err),
     .UpdateTranscriptionItemStatus key StatusFailed "" ""
        ("Failed to generate pre-signed URL: " ++ err.Error) 0 upd]
  | .transcribeFailed audioURL err _ upd =>
    [.GeneratePresignedURL bucket key 3600 (.ok audioURL),
     .TranscribeAudio audioURL (.error err),
     .UpdateTranscriptionItemStatus key StatusFailed "" ""
        ("Transcription API error: " ++ err.Error) 0 upd]
  | .transcribed audioURL resp up processingTime _ upd =>
    [.GeneratePresignedURL bucket key 3600 (.ok audioURL),
     .TranscribeAudio audioURL (.ok resp)] ++ uploadEvents p key resp up ++
    [.UpdateTranscriptionItemStatus key StatusCompleted resp.Text (outputLocationOf p key up)
        "" processingTime upd]

def Tail.result : Tail → Option GoError
  | .presignFailed err _ _ => some (.wrap "failed to generate pre-signed URL" err)
  | .transcribeFailed _ err _ _ => some (.wrap "transcription API error" err)
  | .transcribed _ _ _ _ _ _ => none

def Tail.table (p : Processor) (key : String) (t : Table) : Tail → Table
  | .presignFailed err tm upd =>
    tableAfterUpdate t upd (buildUpdateItemInput p.tableName key StatusFailed "" ""
      ("Failed to generate pre-signed URL: " ++ err.Error) 0 tm)
  | .transcribeFailed _ err tm upd =>
    tableAfterUpdate t upd (buildUpdateItemInput p.tableName key StatusFailed "" ""
      ("Transcription API error: " ++ err.Error) 0 tm)
  | .transcribed _ resp up processingTime tm upd =>
    tableAfterUpdate t upd (buildUpdateItemInput p.tableName key StatusCompleted resp.Text
      (outputLocationOf p key up) "" processingTime tm)

/-- An upload is attempted exactly when the output bucket and the text are both
non-empty. -/
def Tail.Valid (p : Processor) : Tail → Prop
  | .transcribed _ resp up _ _ _ => up = none ↔ (p.outputBucket = "" ∨ resp.Text = "")
  | _ => True

/-- The item `ProcessFile` creates when none is stored. -/
def newItem (bucket key : String) : TranscriptionItem :=
  { FileIdentifier := key, Status := StatusInProgress, SourceBucket := bucket,
    SourceKey := key }

/-- The write that marks the item as in progress: a create when no item was
found, an update otherwise. -/
def markEvent (bucket key : String) (existingItem : Option TranscriptionItem)
    (result : Option GoError) : Event :=
  match existingItem with
  | none => .CreateTranscriptionItem (newItem bucket key) result
  | some _ => .UpdateTranscriptionItemStatus key StatusInProgress "" "" "" 0 result

/-- The table after the item was marked as in progress at time `tm`. -/
def markTable (p : Processor) (bucket key : String) (t : Table)
    (existingItem : Option TranscriptionItem) (tm : Time) : Table :=
  match existingItem with
  | none => t.PutItem { newItem bucket key with CreatedAt := tm, UpdatedAt := tm }
  | some _ => t.UpdateItem (buildUpdateItemInput p.tableName key StatusInProgress "" "" "" 0 tm)

def Path.events (p : Processor) (bucket key : String) : Path → List Event
  | .lookupFailed err => [.GetTranscriptionItem key (.error err)]
  | .skipped existingItem => [.GetTranscriptionItem key (.ok (some existingItem))]
  | .markFailed existingItem err =>
    [.GetTranscriptionItem key (.ok existingItem), markEvent bucket key existingItem (some err)]
  | .marked existingItem _ tail =>
    [.GetTranscriptionItem key (.ok existingItem), markEvent bucket key existingItem none] ++
      tail.events p bucket key

def Path.result : Path → Option GoError
  | .lookupFailed err => some (.wrap "error checking for existing transcription" err)
  | .skipped _ => none
  | .markFailed none err => some (.wrap "failed to create DynamoDB item" err)
  | .markFailed (some _) err => some (.wrap "failed to update DynamoDB item status" err)
  | .marked _ _ tail => tail.result

def Path.table (p : Processor) (bucket key : String) (t : Table) : Path → Table
  | .marked existingItem tm tail => tail.table p key (markTable p bucket key t existingItem tm)
  | _ => t

/-- The side conditions of a path: the guard, what the lookup found, and when an
upload is attempted. -/
def Path.Valid (p : Processor) (key : String) (t : Table) : Path → Prop
  | .lookupFailed _ => True
  | .skipped existingItem =>
    t key = some existingItem ∧
      (existingItem.Status = StatusCompleted ∨ existingItem.Status = StatusInProgress)
  | .markFailed existingItem _ =>
    t key = existingItem ∧
      ∀ item, existingItem = some item →
        ¬ (item.Status = StatusCompleted ∨ item.Status = StatusInProgress)
  | .marked existingItem _ tail =>
    t key = existingItem ∧
      (∀ item, existingItem = some item →
        ¬ (item.Status = StatusCompleted ∨ item.Status = StatusInProgress)) ∧
      tail.Valid p

/-! ## The extension of a key, in the words of the specification -/

/-- The final path element: what follows the last `/`. -/
def finalElement (path : List Char) : List Char :=
  (path.reverse.takeWhile (fun c => c ≠ '/')).reverse

/-- The suffix starting at the last dot; empty when there is no dot. -/
def fromLastDot (name : List Char) : List Char :=
  if '.' ∈ name then '.' :: (name.reverse.takeWhile (fun c => c ≠ '.')).reverse else []

/-- The extension of a key: the suffix starting at the last dot of its final
path element. -/
def extension (key : String) : String :=
  ⟨fromLastDot (finalElement key.data)⟩

/-! ## Concrete runs -/

/-- An outside world with fixed answers: the three results of the object store
and of the transcription service are given, reads and creates succeed, every
call takes one unit of time, and every status update fails when `failUpdates`
is set. -/
def fixedEnv (presign : Except GoError String)
    (transcribe : Except GoError ElevenLabsResponse) (upload : Option GoError)
    (failUpdates : Bool) : Env :=
  { getItem := fun _ _ => none
    unmarshal := fun _ _ => none
    marshal := fun _ _ => none
    putItem := fun _ _ => none
    updateItem := fun _ _ =>
      if failUpdates then some (.new "ProvisionedThroughputExceededException") else none
    presign := fun _ _ _ _ => presign
    transcribe := fun _ _ => transcribe
    upload := fun _ _ _ _ => upload
    latency := fun _ => 1 }

/-- A world with an empty table and no history. -/
def emptyWorld : World :=
  { table := fun _ => none, trace := [], now := 0 }

/-- A world whose table holds one item and that has no history. -/
def worldWith (item : TranscriptionItem) : World :=
  { table := fun k => if k = item.FileIdentifier then some item else none
    trace := []
    now := 0 }

/-- The processor of the tests. -/
def testProcessor : Processor :=
  { tableName := "test-table", outputBucket := "test-output-bucket" }

/-- The response of the transcription service in the tests. -/
def testResponse : ElevenLabsResponse :=
  { ID := "test-id", Text := "This is a test transcription.", Success := true }

/-- A stored item whose status is FAILED and that holds a transcript, an output
location and a processing time. -/
def staleItem : TranscriptionItem :=
  { FileIdentifier := "audio/test-file.aac", Status := StatusFailed,
    SourceBucket := "test-bucket", SourceKey := "audio/test-file.aac",
    TranscriptText := "Existing transcription",
    OutputLocation := "s3://old-output-bucket/transcripts/test-file.txt",
    ProcessingTime := 5 }

/-! ## Reading requests and status writes -/

/-- The assignments a request makes: every clause of its update expression with
both placeholders looked up in the maps of the request, as the attribute it
names and the value it gives. -/
def UpdateItemInput.assignments (req : UpdateItemInput) : List (String × AttributeValue) :=
  req.UpdateExpression.filterMap fun c =>
    match req.ExpressionAttributeNames.lookup c.1, req.ExpressionAttributeValues.lookup c.2 with
    | some name, some val => some (name, val)
    | _, _ => none

/-- The status a call writes to the state store: the status of the item of a
create, the status argument of an update. -/
def Event.statusWritten : Event → Option TranscriptionStatus
  | .CreateTranscriptionItem item _ => some item.Status
  | .UpdateTranscriptionItemStatus _ status _ _ _ _ _ => some status
  | _ => none

/-- The error message a status update carries. -/
def Event.errorMessageWritten : Event → Option String
  | .UpdateTranscriptionItemStatus _ _ _ _ errorMessage _ _ => some errorMessage
  | _ => none

/-- The status and the output location of a status update. -/
def Event.outputLocationWritten : Event → Option (TranscriptionStatus × String)
  | .UpdateTranscriptionItemStatus _ status _ outputLocation _ _ _ =>
    some (status, outputLocation)
  | _ => none

/-! ## Package config (internal/config/config.go) -/

/-- The struct `Config`. -/
structure Config where
  AWSRegion : String
  DynamoDBTableName : String
  ElevenLabsSecretName : String
  OutputS3Bucket : String
  ElevenLabsBaseURL : String
deriving DecidableEq, Repr

/-- The environment variables of the process: `none` for a variable that is not
set. -/
abbrev Environ := String → Option String

/-- The function `os.Getenv`: the value of the variable, empty when it is not
set. -/
def Getenv (environ : Environ) (key : String) : String :=
  (environ key).getD ""

/-- The function `LoadConfig`. -/
def LoadConfig (environ : Environ) : Except GoError Config :=
  let region := Getenv environ "AWS_REGION"
  -- default to us-east-1 if not specified
  let region := if region = "" then "us-east-1" else region
  let tableName := Getenv environ "DYNAMODB_TABLE_NAME"
  if tableName = "" then
    .error (.new "DYNAMODB_TABLE_NAME environment variable is required")
  else
    let secretName := Getenv environ "ELEVENLABS_SECRET_NAME"
    if secretName = "" then
      .error (.new "ELEVENLABS_SECRET_NAME environment variable is required")
    else
      -- optional values with defaults
      let outputBucket := Getenv environ "OUTPUT_S3_BUCKET"
      -- default API URL
      let elevenLabsBaseURL := Getenv environ "ELEVENLABS_BASE_URL"
      let elevenLabsBaseURL :=
        if elevenLabsBaseURL = "" then "https://api.elevenlabs.io/v1" else elevenLabsBaseURL
      .ok
        { AWSRegion := region
          DynamoDBTableName := tableName
          ElevenLabsSecretName := secretName
          OutputS3Bucket := outputBucket
          ElevenLabsBaseURL := elevenLabsBaseURL }

/-! ## Package elevenlabs (internal/elevenlabs/client.go) -/

/-- The struct `ElevenLabsRequest`. -/
structure ElevenLabsRequest where
  AudioURL : String
deriving DecidableEq, Repr

/-- The configuration fields of the struct `Client`; its `httpClient` is the
network below. -/
structure Client where
  baseURL : String
  apiKey : String
deriving DecidableEq, Repr

/-- An HTTP request as `sendTranscriptionRequest` builds it. -/
structure HTTPRequest where
  Method : String
  URL : String
  Header : List (String × String)
  Body : String
deriving DecidableEq, Repr

/-- An HTTP response: its status code and the result of `io.ReadAll` on its
body. -/
structure HTTPResponse where
  StatusCode : Int
  Body : Except GoError String

/-- What `sendTranscriptionRequest` calls outside the package: `json.Marshal` of
the request, the check made by `http.NewRequestWithContext`, the exchange
`httpClient.Do`, and `json.Unmarshal` of the response body. -/
structure Network where
  jsonMarshal : ElevenLabsRequest → Except GoError String
  newRequest : String → String → String → Option GoError
  httpDo : HTTPRequest → Except GoError HTTPResponse
  jsonUnmarshal : String → Except GoError ElevenLabsResponse

/-- The method `Client.sendTranscriptionRequest`. -/
def Client.sendTranscriptionRequest (net : Network) (c : Client) (audioURL : String) :
    Except GoError ElevenLabsResponse :=
  -- construct the API endpoint
  let endpoint := c.baseURL ++ "/transcribe"
  -- create request body
  let requestBody : ElevenLabsRequest := { AudioURL := audioURL }
  -- marshal request to JSON
  match net.jsonMarshal requestBody with
  | .error err => .error (.wrap "failed to marshal request body" err)
  | .ok jsonBody =>
    -- create HTTP request
    match net.newRequest "POST" endpoint jsonBody with
    | some err => .error (.wrap "failed to create HTTP request" err)
    | none =>
      -- set headers
      let req : HTTPRequest :=
        { Method := "POST", URL := endpoint,
          Header := [("Content-Type", "application/json"), ("xi-api-key", c.apiKey)],
          Body := jsonBody }
      -- send request
      match net.httpDo req with
      | .error err => .error (.wrap "failed to send request to ElevenLabs" err)
      | .ok resp =>
        -- read response body
        match resp.Body with
        | .error err => .error (.wrap "failed to read response body" err)
        | .ok respBody =>
          -- check status code
          if resp.StatusCode ≠ 200 then
            .error (.new ("ElevenLabs API returned non-200 status code: " ++
              toString resp.StatusCode ++ ", body: " ++ respBody))
          else
            -- parse response
            match net.jsonUnmarshal respBody with
            | .error err => .error (.wrap "failed to unmarshal response" err)
            | .ok response =>
              -- check for API-level errors
              if !response.Success then
                .error (.new ("ElevenLabs API returned error: " ++ response.Error))
              else .ok response

/-- The method `Client.TranscribeAudio` of the package elevenlabs. -/
def Client.TranscribeAudio (net : Network) (c : Client) (audioURL : String) :
    Except GoError ElevenLabsResponse :=
  c.sendTranscriptionRequest net audioURL

/-! ## More concrete runs -/

/-- A network with fixed answers: marshalling and request creation succeed, the
exchange returns `status` and `body`, and the body parses as `parsed`. -/
def fixedNetwork (status : Int) (body : String)
    (parsed : Except GoError ElevenLabsResponse) : Network :=
  { jsonMarshal := fun r => .ok ("\x7b\"audio_url\":\"" ++ r.AudioURL ++ "\"\x7d")
    newRequest := fun _ _ _ => none
    httpDo := fun _ => .ok { StatusCode := status, Body := .ok body }
    jsonUnmarshal := fun _ => parsed }

/-- The client of the tests. -/
def testClient : Client :=
  { baseURL := "https://api.elevenlabs.io/v1", apiKey := "test-api-key" }

/-- The environment of the second test case of `TestLoadConfig`. -/
def testEnviron : Environ := fun key =>
  if key = "DYNAMODB_TABLE_NAME" then some "test-table"
  else if key = "ELEVENLABS_SECRET_NAME" then some "test-secret"
  else if key = "AWS_REGION" then some "us-west-2"
  else if key = "OUTPUT_S3_BUCKET" then some "test-output-bucket"
  else if key = "ELEVENLABS_BASE_URL" then some "https://test-api.elevenlabs.io/v1"
  else none

/-! ## The output bucket -/

/-- Modelled from the spec: the body of `S3Operations.UploadText` is not in the
source tree; by the specification a call that succeeds "writes content as a new
or replaced text object".  The objects of the object store after a history:
every upload that succeeded, oldest first, puts its content under its bucket
and key, in place of what was there. -/
def storedObjects (trace : List Event) : String → String → Option String :=
  trace.foldl
    (fun objects e =>
      match e with
      | .UploadText bucket key content none =>
        fun b k => if b = bucket ∧ k = key then some content else objects b k
      | _ => objects)
    (fun _ _ => none)

/-- An outside world in which every call succeeds and the transcript names the
file it was made from: the pre-signed URL ends with the key, and the text
returned for a URL ends with that URL. -/
def echoEnv : Env :=
  { getItem := fun _ _ => none
    unmarshal := fun _ _ => none
    marshal := fun _ _ => none
    putItem := fun _ _ => none
    updateItem := fun _ _ => none
    presign := fun _ bucket key _ => .ok ("https://" ++ bucket ++ "/" ++ key)
    transcribe := fun _ audioURL =>
      .ok { ID := "test-id", Text := "Transcript of " ++ audioURL, Success := true }
    upload := fun _ _ _ _ => none
    latency := fun _ => 1 }

/-! ## The tables the workflow produces -/

/-- The tables that runs of `ProcessFile` produce: the empty table, and the
table a run leaves when it starts on such a table, whatever the outside world,
the processor, the file, the history and the clock of that run. -/
inductive Reachable : Table → Prop where
  | empty : Reachable (fun _ => none)
  | run (env : Env) (p : Processor) (bucket key : String) (w : World) :
      Reachable w.table → Reachable (ProcessFile env p bucket key w).2.table

/-- Only COMPLETED records hold a transcript, an output location or a processing
time. -/
def OnlyCompletedHoldResults (t : Table) : Prop :=
  ∀ k item, t k = some item → item.Status ≠ StatusCompleted →
    item.TranscriptText = "" ∧ item.OutputLocation = "" ∧ item.ProcessingTime = 0

/-- A network on which the exchange returns the status code `status` and a body
that cannot be read: `io.ReadAll` fails with `readErr`. -/
def unreadableNetwork (status : Int) (readErr : GoError) : Network :=
  { jsonMarshal := fun r => .ok ("\x7b\"audio_url\":\"" ++ r.AudioURL ++ "\"\x7d")
    newRequest := fun _ _ _ => none
    httpDo := fun _ => .ok { StatusCode := status, Body := .error readErr }
    jsonUnmarshal := fun _ => .error (.new "unexpected end of JSON input") }

/-! # Theorems -/

/-! ## Paths and extensions -/

theorem extLoop_eq (rev acc : List Char) :
    extLoop rev acc
      = if '.' ∈ rev.takeWhile (fun c => c ≠ '/') then
          '.' :: ((rev.takeWhile (fun c => c ≠ '/')).takeWhile (fun c => c ≠ '.')).reverse ++ acc
        else [] := by
  induction rev generalizing acc with
  | nil => simp [extLoop]
  | cons c rev ih =>
    unfold extLoop
    by_cases h1 : c = '/'
    · simp [h1]
    · by_cases h2 : c = '.'
      · simp [h2]
      · rw [if_neg h1, if_neg h2, ih]
        have h2' : ¬ '.' = c := fun h => h2 h.symm
        simp [List.takeWhile_cons, h1, h2, h2']

theorem Ext_eq_extension (key : String) : Ext key = extension key := by
  unfold Ext extension fromLastDot finalElement
  rw [extLoop_eq]
  simp

theorem extLoop_suffix (rev acc : List Char) :
    ∃ s, rev.reverse ++ acc = s ++ extLoop rev acc := by
  induction rev generalizing acc with
  | nil => exact ⟨acc, by simp [extLoop]⟩
  | cons c rev ih =>
    unfold extLoop
    by_cases h1 : c = '/'
    · exact ⟨(c :: rev).reverse ++ acc, by simp [h1]⟩
    · by_cases h2 : c = '.'
      · exact ⟨rev.reverse, by simp [h1, h2]⟩
      · obtain ⟨s, hs⟩ := ih (c :: acc)
        exact ⟨s, by simp [h1, h2, ← hs]⟩

theorem Ext_suffix (path : String) : ∃ stem : String, stem ++ Ext path = path := by
  obtain ⟨s, hs⟩ := extLoop_suffix path.data.reverse []
  refine ⟨⟨s⟩, ?_⟩
  apply String.ext
  simp only [String.data_append, Ext]
  rw [← hs]
  simp

theorem toLowerRune_toLower (unicodeLower : Char → Char) (c : Char) :
    toLowerRune unicodeLower c.toLower = toLowerRune unicodeLower c := by
  by_cases h : 65 ≤ c.toNat ∧ c.toNat ≤ 90
  · obtain ⟨n, hn⟩ : ∃ n, c.toNat = n := ⟨_, rfl⟩
    have hc : c = Char.ofNat n := by rw [← hn, Char.ofNat_toNat]
    subst hc
    rw [hn] at h
    obtain ⟨h1, h2⟩ := h
    clear hn
    interval_cases n <;> rfl
  · have : c.toLower = c := by
      unfold Char.toLower
      simp only [ge_iff_le, h, if_false]
    rw [this]

theorem ToLower_congr (unicodeLower : Char → Char) (s t : String)
    (h : s.data.map Char.toLower = t.data.map Char.toLower) :
    ToLower unicodeLower s = ToLower unicodeLower t := by
  unfold ToLower
  have key : ∀ l : List Char,
      l.map (toLowerRune unicodeLower) = (l.map Char.toLower).map (toLowerRune unicodeLower) := by
    intro l
    simp [List.map_map, Function.comp_def, toLowerRune_toLower]
  rw [key s.data, key t.data, h]

/-! ## The state store -/

theorem applyClauses_build (tableName fileIdentifier : String) (status : TranscriptionStatus)
    (transcriptText outputLocation errorMessage : String) (processingTime : Int)
    (now : Time) (old : TranscriptionItem) :
    applyClauses
      (buildUpdateItemInput tableName fileIdentifier status transcriptText outputLocation
        errorMessage processingTime now)
      (buildUpdateItemInput tableName fileIdentifier status transcriptText outputLocation
        errorMessage processingTime now).UpdateExpression old
      = updateFields old status transcriptText outputLocation errorMessage processingTime
          now := by
  unfold buildUpdateItemInput updateFields
  by_cases h1 : transcriptText = "" <;> by_cases h2 : outputLocation = "" <;>
    by_cases h3 : errorMessage = "" <;> by_cases h4 : processingTime > 0 <;>
    simp [h1, h2, h3, h4, applyClauses, setAttribute, List.lookup]

theorem buildUpdateItemInput_Key (tableName fileIdentifier : String)
    (status : TranscriptionStatus) (transcriptText outputLocation errorMessage : String)
    (processingTime : Int) (now : Time) :
    (buildUpdateItemInput tableName fileIdentifier status transcriptText outputLocation
      errorMessage processingTime now).Key = fileIdentifier := by
  unfold buildUpdateItemInput
  by_cases h1 : transcriptText = "" <;> by_cases h2 : outputLocation = "" <;>
    by_cases h3 : errorMessage = "" <;> by_cases h4 : processingTime > 0 <;>
    simp [h1, h2, h3, h4]

theorem buildUpdateItemInput_ConditionExpression (tableName fileIdentifier : String)
    (status : TranscriptionStatus) (transcriptText outputLocation errorMessage : String)
    (processingTime : Int) (now : Time) :
    (buildUpdateItemInput tableName fileIdentifier status transcriptText outputLocation
      errorMessage processingTime now).ConditionExpression = none := by
  unfold buildUpdateItemInput
  by_cases h1 : transcriptText = "" <;> by_cases h2 : outputLocation = "" <;>
    by_cases h3 : errorMessage = "" <;> by_cases h4 : processingTime > 0 <;>
    simp [h1, h2, h3, h4]

/-- The table after `UpdateItem` with a request built by
`UpdateTranscriptionItemStatus`. -/
theorem UpdateItem_build (t : Table) (tableName fileIdentifier : String)
    (status : TranscriptionStatus) (transcriptText outputLocation errorMessage : String)
    (processingTime : Int) (now : Time) (k : String) :
    t.UpdateItem (buildUpdateItemInput tableName fileIdentifier status transcriptText
        outputLocation errorMessage processingTime now) k
      = if k = fileIdentifier then
          some (updateFields ((t fileIdentifier).getD (blankItem fileIdentifier)) status
            transcriptText outputLocation errorMessage processingTime now)
        else t k := by
  unfold Table.UpdateItem
  simp only [applyClauses_build, buildUpdateItemInput_Key,
    buildUpdateItemInput_ConditionExpression]
  cases t fileIdentifier <;> rfl

/-! ## One call, one event -/

theorem GetTranscriptionItem_eq (env : Env) (fileIdentifier : String) (w : World) :
    GetTranscriptionItem env fileIdentifier w
      = ((GetTranscriptionItem env fileIdentifier w).1,
          w.record env (.GetTranscriptionItem fileIdentifier
            (GetTranscriptionItem env fileIdentifier w).1)) := rfl

theorem GetTranscriptionItem_found (env : Env) (fileIdentifier : String) (w : World)
    (found : Option TranscriptionItem)
    (h : (GetTranscriptionItem env fileIdentifier w).1 = .ok found) :
    w.table fileIdentifier = found := by
  revert h
  simp only [GetTranscriptionItem]
  generalize env.getItem w.trace fileIdentifier = g
  cases g with
  | some err => simp
  | none =>
    generalize w.table fileIdentifier = ti
    cases ti with
    | none => simp
    | some item => 
      simp only
      generalize env.unmarshal w.trace item = u
      cases u <;> simp

theorem CreateTranscriptionItem_trace (env : Env) (item : TranscriptionItem) (w : World) :
    (CreateTranscriptionItem env item w).2.trace
      = w.trace ++ [.CreateTranscriptionItem item (CreateTranscriptionItem env item w).1] := by
  unfold CreateTranscriptionItem
  simp only
  split
  · simp [World.record]
  · split <;> simp [World.record]

theorem CreateTranscriptionItem_table (env : Env) (item : TranscriptionItem) (w : World)
    (h : (CreateTranscriptionItem env item w).1 = none) :
    (CreateTranscriptionItem env item w).2.table
      = w.table.PutItem { item with CreatedAt := w.now, UpdatedAt := w.now } := by
  revert h
  unfold CreateTranscriptionItem
  simp only
  split
  · simp [World.record]
  · split <;> simp [World.record]

theorem CreateTranscriptionItem_table_failed (env : Env) (item : TranscriptionItem)
    (w : World) (err : GoError) (h : (CreateTranscriptionItem env item w).1 = some err) :
    (CreateTranscriptionItem env item w).2.table = w.table := by
  revert h
  unfold CreateTranscriptionItem
  simp only
  split
  · simp [World.record]
  · split <;> simp [World.record]

theorem UpdateTranscriptionItemStatus_trace (env : Env) (tableName fileIdentifier : String)
    (status : TranscriptionStatus) (transcriptText outputLocation errorMessage : String)
    (processingTime : Int) (w : World) :
    (UpdateTranscriptionItemStatus env tableName fileIdentifier status transcriptText
        outputLocation errorMessage processingTime w).2.trace
      = w.trace ++ [.UpdateTranscriptionItemStatus fileIdentifier status transcriptText
          outputLocation errorMessage processingTime
          (UpdateTranscriptionItemStatus env tableName fileIdentifier status transcriptText
            outputLocation errorMessage processingTime w).1] := by
  unfold UpdateTranscriptionItemStatus
  simp only
  split <;> simp [World.record]

theorem UpdateTranscriptionItemStatus_table (env : Env) (tableName fileIdentifier : String)
    (status : TranscriptionStatus) (transcriptText outputLocation errorMessage : String)
    (processingTime : Int) (w : World) :
    (UpdateTranscriptionItemStatus env tableName fileIdentifier status transcriptText
        outputLocation errorMessage processingTime w).2.table
      = tableAfterUpdate w.table
          (UpdateTranscriptionItemStatus env tableName fileIdentifier status transcriptText
            outputLocation errorMessage processingTime w).1
          (buildUpdateItemInput tableName fileIdentifier status transcriptText outputLocation
            errorMessage processingTime w.now) := by
  unfold UpdateTranscriptionItemStatus
  simp only
  split <;> simp [World.record, tableAfterUpdate]


/-- A status update appends one event and, when it succeeds, edits the table. -/
theorem update_step (env : Env) (tableName fileIdentifier : String)
    (status : TranscriptionStatus) (transcriptText outputLocation errorMessage : String)
    (processingTime : Int) (w : World) :
    ∃ tm upd,
      (UpdateTranscriptionItemStatus env tableName fileIdentifier status transcriptText
        outputLocation errorMessage processingTime w).1 = upd ∧
      (UpdateTranscriptionItemStatus env tableName fileIdentifier status transcriptText
        outputLocation errorMessage processingTime w).2.trace
        = w.trace ++ [.UpdateTranscriptionItemStatus fileIdentifier status transcriptText
            outputLocation errorMessage processingTime upd] ∧
      (UpdateTranscriptionItemStatus env tableName fileIdentifier status transcriptText
        outputLocation errorMessage processingTime w).2.table
        = tableAfterUpdate w.table upd
            (buildUpdateItemInput tableName fileIdentifier status transcriptText
              outputLocation errorMessage processingTime tm) :=
  ⟨w.now, _, rfl, UpdateTranscriptionItemStatus_trace .., UpdateTranscriptionItemStatus_table ..⟩

theorem finishProcessing_path (env : Env) (p : Processor) (key : String) (startTime : Time)
    (resp : ElevenLabsResponse) (w : World) :
    ∃ up processingTime tm upd,
      (up = none ↔ (p.outputBucket = "" ∨ resp.Text = "")) ∧
      (finishProcessing env p key startTime resp w).1 = none ∧
      (finishProcessing env p key startTime resp w).2.trace
        = w.trace ++ (uploadEvents p key resp up ++
          [.UpdateTranscriptionItemStatus key StatusCompleted resp.Text
            (outputLocationOf p key up) "" processingTime upd]) ∧
      (finishProcessing env p key startTime resp w).2.table
        = tableAfterUpdate w.table upd
            (buildUpdateItemInput p.tableName key StatusCompleted resp.Text
              (outputLocationOf p key up) "" processingTime tm) := by
  unfold finishProcessing
  by_cases hc : p.outputBucket ≠ "" ∧ resp.Text ≠ ""
  · simp only [if_pos hc, UploadText]
    cases hu : env.upload w.trace p.outputBucket (outputKey key) resp.Text with
    | none =>
      obtain ⟨tm, upd, -, h1, h2⟩ := update_step env p.tableName key StatusCompleted resp.Text
        ("s3://" ++ p.outputBucket ++ "/" ++ outputKey key) "" ((w.now : Int) - startTime)
        (w.record env (.UploadText p.outputBucket (outputKey key) resp.Text none))
      refine ⟨some none, (w.now : Int) - startTime, tm, upd, ?_, ?_, ?_, ?_⟩
      · simp [hc.1, hc.2]
      · simp
      · simp only [h1]
        simp [World.record, uploadEvents, outputLocationOf]
      · simp only [h2]
        simp [World.record, outputLocationOf]
    | some err =>
      obtain ⟨tm, upd, -, h1, h2⟩ := update_step env p.tableName key StatusCompleted resp.Text
        "" "" ((w.now : Int) - startTime)
        (w.record env (.UploadText p.outputBucket (outputKey key) resp.Text (some err)))
      refine ⟨some (some err), (w.now : Int) - startTime, tm, upd, ?_, ?_, ?_, ?_⟩
      · simp [hc.1, hc.2]
      · simp
      · simp only [h1]
        simp [World.record, uploadEvents, outputLocationOf]
      · simp only [h2]
        simp [World.record, outputLocationOf]
  · simp only [if_neg hc]
    obtain ⟨tm, upd, -, h1, h2⟩ := update_step env p.tableName key StatusCompleted resp.Text
      "" "" ((w.now : Int) - startTime) w
    refine ⟨none, (w.now : Int) - startTime, tm, upd, ?_, ?_, ?_, ?_⟩
    · simp only [true_iff]
      by_contra hne
      exact hc ⟨fun h => hne (Or.inl h), fun h => hne (Or.inr h)⟩
    · simp
    · simp only [h1]
      simp [uploadEvents, outputLocationOf]
    · simp only [h2]
      simp [outputLocationOf]


theorem transcribeFile_path (env : Env) (p : Processor) (bucket key : String)
    (startTime : Time) (w : World) :
    ∃ tail : Tail, tail.Valid p ∧
      (transcribeFile env p bucket key startTime w).1 = tail.result ∧
      (transcribeFile env p bucket key startTime w).2.trace
        = w.trace ++ tail.events p bucket key ∧
      (transcribeFile env p bucket key startTime w).2.table = tail.table p key w.table := by
  unfold transcribeFile
  simp only [GeneratePresignedURL]
  cases hp : env.presign w.trace bucket key 3600 with
  | error err =>
    obtain ⟨tm, upd, -, h1, h2⟩ := update_step env p.tableName key StatusFailed "" ""
      ("Failed to generate pre-signed URL: " ++ err.Error) 0
      (w.record env (.GeneratePresignedURL bucket key 3600 (.error err)))
    refine ⟨.presignFailed err tm upd, trivial, ?_, ?_, ?_⟩
    · simp [Tail.result]
    · simp only [h1]
      simp [World.record, Tail.events]
    · simp only [h2]
      simp [World.record, Tail.table]
  | ok audioURL =>
    simp only [TranscribeAudio]
    cases ht : env.transcribe
        (w.record env (.GeneratePresignedURL bucket key 3600 (.ok audioURL))).trace
        audioURL with
    | error err =>
      obtain ⟨tm, upd, -, h1, h2⟩ := update_step env p.tableName key StatusFailed "" ""
        ("Transcription API error: " ++ err.Error) 0
        ((w.record env (.GeneratePresignedURL bucket key 3600 (.ok audioURL))).record env
          (.TranscribeAudio audioURL (.error err)))
      refine ⟨.transcribeFailed audioURL err tm upd, trivial, ?_, ?_, ?_⟩
      · simp [Tail.result]
      · simp only [h1]
        simp [World.record, Tail.events]
      · simp only [h2]
        simp [World.record, Tail.table]
    | ok resp =>
      obtain ⟨up, pt, tm, upd, hv, hr, h1, h2⟩ := finishProcessing_path env p key startTime
        resp ((w.record env (.GeneratePresignedURL bucket key 3600 (.ok audioURL))).record env
          (.TranscribeAudio audioURL (.ok resp)))
      refine ⟨.transcribed audioURL resp up pt tm upd, hv, ?_, ?_, ?_⟩
      · simp only [hr]
        simp [Tail.result]
      · simp only [h1]
        simp [World.record, Tail.events]
      · simp only [h2]
        simp [World.record, Tail.table]

theorem ProcessFile_path (env : Env) (p : Processor) (bucket key : String) (w : World) :
    ∃ path : Path, path.Valid p key w.table ∧
      (ProcessFile env p bucket key w).1 = path.result ∧
      runEvents env p bucket key w = path.events p bucket key ∧
      (ProcessFile env p bucket key w).2.table = path.table p bucket key w.table := by
  unfold runEvents ProcessFile
  dsimp only
  rw [GetTranscriptionItem_eq]
  cases hg : (GetTranscriptionItem env key w).1 with
  | error err =>
    refine ⟨.lookupFailed err, trivial, ?_, ?_, ?_⟩ <;>
      simp [Path.result, Path.events, Path.table, World.record]
  | ok found =>
    have hf := GetTranscriptionItem_found env key w found hg
    cases found with
    | none =>
      simp only
      have hct := CreateTranscriptionItem_trace env (newItem bucket key)
        (w.record env (.GetTranscriptionItem key (.ok none)))
      rcases hC : CreateTranscriptionItem env (newItem bucket key)
        (w.record env (.GetTranscriptionItem key (.ok none))) with ⟨r, w2⟩
      have hC' : CreateTranscriptionItem env
          { FileIdentifier := key, Status := StatusInProgress, SourceBucket := bucket,
            SourceKey := key }
          (w.record env (.GetTranscriptionItem key (.ok none))) = (r, w2) := hC
      rw [hC] at hct
      simp only [hC']
      cases r with
      | some err =>
        have htab := CreateTranscriptionItem_table_failed env (newItem bucket key)
          (w.record env (.GetTranscriptionItem key (.ok none))) err (by rw [hC])
        rw [hC] at htab
        dsimp only at hct htab
        refine ⟨.markFailed none err, ⟨hf, by simp⟩, ?_, ?_, ?_⟩
        · simp [Path.result]
        · simp only [hct]
          simp [World.record, Path.events, markEvent]
        · simp only [htab]
          simp [World.record, Path.table]
      | none =>
        have htab := CreateTranscriptionItem_table env (newItem bucket key)
          (w.record env (.GetTranscriptionItem key (.ok none))) (by rw [hC])
        rw [hC] at htab
        dsimp only at hct htab
        obtain ⟨tail, hv, hr, h1, h2⟩ := transcribeFile_path env p bucket key w.now w2
        refine ⟨.marked none (w.record env (.GetTranscriptionItem key (.ok none))).now tail,
          ⟨hf, by simp, hv⟩, ?_, ?_, ?_⟩
        · simp only [hr]
          simp [Path.result]
        · simp only [h1, hct]
          simp [World.record, Path.events, markEvent]
        · simp only [h2, htab]
          simp [World.record, Path.table, markTable]
    | some item =>
      simp only
      by_cases hgd : item.Status = StatusCompleted ∨ item.Status = StatusInProgress
      · simp only [if_pos hgd]
        refine ⟨.skipped item, ⟨hf, hgd⟩, ?_, ?_, ?_⟩ <;>
          simp [Path.result, Path.events, Path.table, World.record]
      · simp only [if_neg hgd]
        obtain ⟨tm, upd, hu, hut, hutab⟩ := update_step env p.tableName key StatusInProgress
          "" "" "" 0 (w.record env (.GetTranscriptionItem key (.ok (some item))))
        rcases hU : UpdateTranscriptionItemStatus env p.tableName key StatusInProgress
          "" "" "" 0 (w.record env (.GetTranscriptionItem key (.ok (some item)))) with ⟨r, w2⟩
        rw [hU] at hu hut hutab
        simp only at hu hut hutab
        subst hu
        cases r with
        | some err =>
          refine ⟨.markFailed (some item) err, ⟨hf, ?_⟩, ?_, ?_, ?_⟩
          · intro it hit
            cases hit
            exact hgd
          · simp [Path.result]
          · simp only [hut]
            simp [World.record, Path.events, markEvent]
          · simp only [hutab]
            simp [World.record, Path.table, tableAfterUpdate]
        | none =>
          obtain ⟨tail, hv, hr, h1, h2⟩ := transcribeFile_path env p bucket key w.now w2
          refine ⟨.marked (some item) tm tail, ⟨hf, ?_, hv⟩, ?_, ?_, ?_⟩
          · intro it hit
            cases hit
            exact hgd
          · simp only [hr]
            simp [Path.result]
          · simp only [h1, hut]
            simp [World.record, Path.events, markEvent]
          · simp only [h2, hutab]
            simp [World.record, Path.table, markTable, tableAfterUpdate]


/-- Every run starts with the lookup. -/
theorem runEvents_head (env : Env) (p : Processor) (bucket key : String) (w : World) :
    (runEvents env p bucket key w).head?
      = some (.GetTranscriptionItem key (GetTranscriptionItem env key w).1) := by
  unfold runEvents ProcessFile
  dsimp only
  rw [GetTranscriptionItem_eq]
  cases hg : (GetTranscriptionItem env key w).1 with
  | error err => simp [World.record]
  | ok found =>
    cases found with
    | none =>
      dsimp only
      have hct := CreateTranscriptionItem_trace env
        { FileIdentifier := key, Status := StatusInProgress, SourceBucket := bucket,
          SourceKey := key }
        (w.record env (.GetTranscriptionItem key (.ok none)))
      rcases hC : CreateTranscriptionItem env
        { FileIdentifier := key, Status := StatusInProgress, SourceBucket := bucket,
          SourceKey := key }
        (w.record env (.GetTranscriptionItem key (.ok none))) with ⟨r, w2⟩
      rw [hC] at hct
      dsimp only at hct
      cases r with
      | some err => simp [hct, World.record]
      | none =>
        obtain ⟨tail, -, -, h1, -⟩ := transcribeFile_path env p bucket key w.now w2
        simp [h1, hct, World.record]
    | some item =>
      dsimp only
      by_cases hgd : item.Status = StatusCompleted ∨ item.Status = StatusInProgress
      · simp [if_pos hgd, World.record]
      · simp only [if_neg hgd]
        have hut := UpdateTranscriptionItemStatus_trace env p.tableName key StatusInProgress
          "" "" "" 0 (w.record env (.GetTranscriptionItem key (.ok (some item))))
        rcases hU : UpdateTranscriptionItemStatus env p.tableName key StatusInProgress
          "" "" "" 0 (w.record env (.GetTranscriptionItem key (.ok (some item)))) with ⟨r, w2⟩
        rw [hU] at hut
        dsimp only at hut
        cases r with
        | some err => simp [hut, World.record]
        | none =>
          obtain ⟨tail, -, -, h1, -⟩ := transcribeFile_path env p bucket key w.now w2
          simp [h1, hut, World.record]

/-- After the item is marked, the run makes no lookup and no create. -/
theorem Tail.events_isCreate (p : Processor) (bucket key : String) (tail : Tail) :
    ∀ e ∈ tail.events p bucket key, e.isCreate = false := by
  cases tail with
  | presignFailed err tm upd => simp [Tail.events, Event.isCreate]
  | transcribeFailed audioURL err tm upd => simp [Tail.events, Event.isCreate]
  | transcribed audioURL resp up processingTime tm upd =>
    cases up <;> simp [Tail.events, uploadEvents, Event.isCreate]

/-- The path of a run whose lookup found `found`: the guard, or the mark. -/
theorem path_of_lookup (env : Env) (p : Processor) (bucket key : String) (w : World)
    (found : Option TranscriptionItem) (path : Path)
    (hget : (GetTranscriptionItem env key w).1 = .ok found)
    (he : runEvents env p bucket key w = path.events p bucket key) :
    (∃ item, found = some item ∧ path = .skipped item) ∨
    (∃ err, path = .markFailed found err) ∨
    (∃ tm tail, path = .marked found tm tail) := by
  have hh := runEvents_head env p bucket key w
  rw [he, hget] at hh
  cases path with
  | lookupFailed err => simp [Path.events] at hh
  | skipped item =>
    simp only [Path.events, List.head?_cons, Option.some.injEq, Event.GetTranscriptionItem.injEq,
      true_and, Except.ok.injEq] at hh
    exact Or.inl ⟨item, hh.symm, rfl⟩
  | markFailed existingItem err =>
    simp only [Path.events, List.head?_cons, Option.some.injEq, Event.GetTranscriptionItem.injEq,
      true_and, Except.ok.injEq] at hh
    subst hh
    exact Or.inr (Or.inl ⟨err, rfl⟩)
  | marked existingItem tm tail =>
    simp only [Path.events, List.cons_append, List.head?_cons, Option.some.injEq,
      Event.GetTranscriptionItem.injEq, true_and, Except.ok.injEq] at hh
    subst hh
    exact Or.inr (Or.inr ⟨tm, tail, rfl⟩)

/-! ## What an event of the run says about its path -/

theorem path_of_presign_error (p : Processor) (bucket key : String) (path : Path)
    (b k : String) (n : Nat) (err : GoError)
    (h : Event.GeneratePresignedURL b k n (.error err) ∈ path.events p bucket key) :
    ∃ existingItem tm tm2 upd, path = .marked existingItem tm (.presignFailed err tm2 upd) := by
  cases path with
  | lookupFailed e => simp [Path.events] at h
  | skipped item => simp [Path.events] at h
  | markFailed existingItem e => cases existingItem <;> simp [Path.events, markEvent] at h
  | marked existingItem tm tail =>
    cases tail with
    | presignFailed e tm2 upd =>
      cases existingItem <;> simp [Path.events, markEvent, Tail.events] at h <;>
        · obtain ⟨-, -, -, rfl⟩ := h
          exact ⟨_, _, _, _, rfl⟩
    | transcribeFailed audioURL e tm2 upd =>
      cases existingItem <;> simp [Path.events, markEvent, Tail.events] at h
    | transcribed audioURL resp up pt tm2 upd =>
      cases existingItem <;> cases up <;>
        simp [Path.events, markEvent, Tail.events, uploadEvents] at h

theorem path_of_transcribe_error (p : Processor) (bucket key : String) (path : Path)
    (url : String) (err : GoError)
    (h : Event.TranscribeAudio url (.error err) ∈ path.events p bucket key) :
    ∃ existingItem tm tm2 upd,
      path = .marked existingItem tm (.transcribeFailed url err tm2 upd) := by
  cases path with
  | lookupFailed e => simp [Path.events] at h
  | skipped item => simp [Path.events] at h
  | markFailed existingItem e => cases existingItem <;> simp [Path.events, markEvent] at h
  | marked existingItem tm tail =>
    cases tail with
    | presignFailed e tm2 upd =>
      cases existingItem <;> simp [Path.events, markEvent, Tail.events] at h
    | transcribeFailed audioURL e tm2 upd =>
      cases existingItem <;> simp [Path.events, markEvent, Tail.events] at h <;>
        · obtain ⟨rfl, rfl⟩ := h
          exact ⟨_, _, _, _, rfl⟩
    | transcribed audioURL resp up pt tm2 upd =>
      cases existingItem <;> cases up <;>
        simp [Path.events, markEvent, Tail.events, uploadEvents] at h

theorem path_of_transcribe_ok (p : Processor) (bucket key : String) (path : Path)
    (url : String) (resp : ElevenLabsResponse)
    (h : Event.TranscribeAudio url (.ok resp) ∈ path.events p bucket key) :
    ∃ existingItem tm up pt tm2 upd,
      path = .marked existingItem tm (.transcribed url resp up pt tm2 upd) := by
  cases path with
  | lookupFailed e => simp [Path.events] at h
  | skipped item => simp [Path.events] at h
  | markFailed existingItem e => cases existingItem <;> simp [Path.events, markEvent] at h
  | marked existingItem tm tail =>
    cases tail with
    | presignFailed e tm2 upd =>
      cases existingItem <;> simp [Path.events, markEvent, Tail.events] at h
    | transcribeFailed audioURL e tm2 upd =>
      cases existingItem <;> simp [Path.events, markEvent, Tail.events] at h
    | transcribed audioURL r up pt tm2 upd =>
      cases existingItem <;> cases up <;>
        simp [Path.events, markEvent, Tail.events, uploadEvents] at h <;>
        · obtain ⟨rfl, rfl⟩ := h
          exact ⟨_, _, _, _, _, _, rfl⟩

/-! ## The stored item along a path -/

/-- The item stored under `key` once it is marked as in progress: its status is
IN_PROGRESS and its optional fields are those stored before, or empty for a new
item. -/
theorem markTable_key (p : Processor) (bucket key : String) (t : Table)
    (existingItem : Option TranscriptionItem) (tm : Time) (h : t key = existingItem) :
    ∃ item, markTable p bucket key t existingItem tm key = some item ∧
      item.Status = StatusInProgress ∧
      (existingItem = none →
        item.TranscriptText = "" ∧ item.OutputLocation = "" ∧ item.ErrorMessage = "" ∧
          item.ProcessingTime = 0) ∧
      (∀ old, existingItem = some old →
        item.TranscriptText = old.TranscriptText ∧ item.OutputLocation = old.OutputLocation ∧
          item.ErrorMessage = old.ErrorMessage ∧ item.ProcessingTime = old.ProcessingTime) := by
  cases existingItem with
  | none =>
    refine ⟨{ newItem bucket key with CreatedAt := tm, UpdatedAt := tm }, ?_, rfl, ?_, ?_⟩
    · simp [markTable, Table.PutItem, newItem]
    · intro _
      exact ⟨rfl, rfl, rfl, rfl⟩
    · intro old hold
      cases hold
  | some old =>
    refine ⟨updateFields old StatusInProgress "" "" "" 0 tm, ?_, rfl, ?_, ?_⟩
    · simp [markTable, UpdateItem_build, h]
    · intro hn
      cases hn
    · intro o ho
      cases ho
      simp [updateFields]

/-- The item stored under `key` after a status update that took effect on a
table holding `item` under `key`. -/
theorem tableAfterUpdate_key (t : Table) (tableName key : String)
    (status : TranscriptionStatus) (transcriptText outputLocation errorMessage : String)
    (processingTime : Int) (tm : Time) (item : TranscriptionItem) (h : t key = some item) :
    tableAfterUpdate t none (buildUpdateItemInput tableName key status transcriptText
        outputLocation errorMessage processingTime tm) key
      = some (updateFields item status transcriptText outputLocation errorMessage
          processingTime tm) := by
  simp [tableAfterUpdate, UpdateItem_build, h]

/-- A non-empty text put in front of a string gives a non-empty string. -/
theorem append_ne_empty (a b : String) (ha : a ≠ "") : a ++ b ≠ "" := by
  intro h
  apply ha
  have h2 := congrArg String.data h
  simp only [String.data_append] at h2
  have h3 : a.data = [] := (List.append_eq_nil.mp h2).1
  exact String.ext h3

/-! ## Tables the workflow produces -/

/-- A run for `key` leaves the records of the other keys as they were. -/
theorem Path.table_other (p : Processor) (bucket key : String) (t : Table) (path : Path)
    (k : String) (hk : k ≠ key) : path.table p bucket key t k = t k := by
  have hmark : ∀ existingItem tm, markTable p bucket key t existingItem tm k = t k := by
    intro existingItem tm
    cases existingItem with
    | none => simp [markTable, Table.PutItem, newItem, hk]
    | some item => simp [markTable, UpdateItem_build, hk]
  have hupd : ∀ (t₂ : Table) upd status text loc msg pt tm,
      tableAfterUpdate t₂ upd (buildUpdateItemInput p.tableName key status text loc msg pt tm) k
        = t₂ k := by
    intro t₂ upd status text loc msg pt tm
    cases upd <;> simp [tableAfterUpdate, UpdateItem_build, hk]
  cases path with
  | lookupFailed err => rfl
  | skipped item => rfl
  | markFailed existingItem err => rfl
  | marked existingItem tm tail =>
    cases tail <;> simp only [Path.table, Tail.table, hupd, hmark]

/-- A run of `ProcessFile` keeps the table such that only COMPLETED records hold
a transcript, an output location or a processing time. -/
theorem ProcessFile_keeps_results_on_completed (env : Env) (p : Processor)
    (bucket key : String) (w : World) (h : OnlyCompletedHoldResults w.table) :
    OnlyCompletedHoldResults (ProcessFile env p bucket key w).2.table := by
  obtain ⟨path, hv, -, -, ht⟩ := ProcessFile_path env p bucket key w
  rw [ht]
  intro k item hitem hstatus
  by_cases hk : k = key
  · subst hk
    cases path with
    | lookupFailed err => exact h k item hitem hstatus
    | skipped existing => exact h k item hitem hstatus
    | markFailed existingItem err => exact h k item hitem hstatus
    | marked existingItem tm tail =>
      obtain ⟨marked, hm, hms, hnone, hsome⟩ :=
        markTable_key p bucket k w.table existingItem tm hv.1
      have hclean : marked.TranscriptText = "" ∧ marked.OutputLocation = "" ∧
          marked.ProcessingTime = 0 := by
        cases hex : existingItem with
        | none =>
          obtain ⟨h1, h2, -, h4⟩ := hnone hex
          exact ⟨h1, h2, h4⟩
        | some old =>
          obtain ⟨h1, h2, -, h4⟩ := hsome old hex
          have hold : old.Status ≠ StatusCompleted := fun hc => hv.2.1 old hex (Or.inl hc)
          obtain ⟨g1, g2, g4⟩ := h k old (hv.1.trans hex) hold
          exact ⟨h1.trans g1, h2.trans g2, h4.trans g4⟩
      have hkeep : ∀ (status : TranscriptionStatus) (msg : String) (tm2 : Time)
          (upd : Option GoError),
          tableAfterUpdate (markTable p bucket k w.table existingItem tm) upd
              (buildUpdateItemInput p.tableName k status "" "" msg 0 tm2) k = some item →
            item.TranscriptText = "" ∧ item.OutputLocation = "" ∧
              item.ProcessingTime = 0 := by
        intro status msg tm2 upd hrec
        cases upd with
        | some e =>
          simp only [tableAfterUpdate, hm, Option.some.injEq] at hrec
          subst hrec
          exact hclean
        | none =>
          rw [tableAfterUpdate_key _ _ _ _ _ _ _ _ _ _ hm] at hrec
          cases hrec
          simpa [updateFields] using hclean
      cases tail with
      | presignFailed err tm2 upd => exact hkeep _ _ _ _ hitem
      | transcribeFailed audioURL err tm2 upd => exact hkeep _ _ _ _ hitem
      | transcribed audioURL resp up pt tm2 upd =>
        cases upd with
        | some e =>
          simp only [Path.table, Tail.table, tableAfterUpdate, hm, Option.some.injEq] at hitem
          subst hitem
          exact hclean
        | none =>
          simp only [Path.table, Tail.table] at hitem
          rw [tableAfterUpdate_key _ _ _ _ _ _ _ _ _ _ hm] at hitem
          cases hitem
          exact absurd rfl hstatus
  · rw [Path.table_other p bucket key w.table path k hk] at hitem
    exact h k item hitem hstatus

/-- In every table the workflow produces, only COMPLETED records hold a
transcript, an output location or a processing time. -/
theorem Reachable.onlyCompletedHoldResults (t : Table) (h : Reachable t) :
    OnlyCompletedHoldResults t := by
  induction h with
  | empty =>
    intro k item hitem
    cases hitem
  | run env p bucket key w _ ih =>
    exact ProcessFile_keeps_results_on_completed env p bucket key w ih

/-- In a table the workflow produces, a record found outside the guard holds no
transcript, no output location and no processing time. -/
theorem Reachable.retried_record (t : Table) (h : Reachable t) (key : String)
    (old : TranscriptionItem) (hold : t key = some old)
    (hguard : ¬ (old.Status = StatusCompleted ∨ old.Status = StatusInProgress)) :
    old.TranscriptText = "" ∧ old.OutputLocation = "" ∧ old.ProcessingTime = 0 :=
  Reachable.onlyCompletedHoldResults t h key old hold (fun hc => hguard (Or.inl hc))

/-! ## The idempotency guard -/

/-- C1: when the lookup for `key` returns a record whose status is COMPLETED or
IN_PROGRESS, `ProcessFile` returns nil, the lookup is the only call of the run
(no pre-signed URL, no transcription, no upload, no create, no update), and the
table is left as it was. -/
theorem ProcessFile_skips_processed (env : Env) (p : Processor) (bucket key : String)
    (w : World) (item : TranscriptionItem)
    (hget : (GetTranscriptionItem env key w).1 = .ok (some item))
    (hst : item.Status = StatusCompleted ∨ item.Status = StatusInProgress) :
    (ProcessFile env p bucket key w).1 = none ∧
    runEvents env p bucket key w = [Event.GetTranscriptionItem key (.ok (some item))] ∧
    (∀ e ∈ runEvents env p bucket key w,
      e.isExternal = false ∧ e.isCreate = false ∧ e.isUpdate = false) ∧
    (ProcessFile env p bucket key w).2.table = w.table := by
  have h2 : GetTranscriptionItem env key w
      = (.ok (some item), w.record env (.GetTranscriptionItem key (.ok (some item)))) := by
    rw [← hget]
    rfl
  simp [runEvents, ProcessFile, h2, hst, World.record, Event.isExternal, Event.isPresign,
    Event.isTranscribe, Event.isUpload, Event.isCreate, Event.isUpdate]

theorem ProcessFile_skips_processed_witness :
    (ProcessFile (fixedEnv (.ok "https://presigned-url") (.ok testResponse) none false)
        testProcessor "test-bucket" "audio/test-file.aac"
        (worldWith { FileIdentifier := "audio/test-file.aac", Status := StatusCompleted,
                     SourceBucket := "test-bucket", SourceKey := "audio/test-file.aac",
                     TranscriptText := "Existing transcription" })).1 = none ∧
    runEvents (fixedEnv (.ok "https://presigned-url") (.ok testResponse) none false)
        testProcessor "test-bucket" "audio/test-file.aac"
        (worldWith { FileIdentifier := "audio/test-file.aac", Status := StatusCompleted,
                     SourceBucket := "test-bucket", SourceKey := "audio/test-file.aac",
                     TranscriptText := "Existing transcription" })
      = [Event.GetTranscriptionItem "audio/test-file.aac"
          (.ok (some { FileIdentifier := "audio/test-file.aac", Status := StatusCompleted,
                       SourceBucket := "test-bucket", SourceKey := "audio/test-file.aac",
                       TranscriptText := "Existing transcription" }))] :=
  have h := ProcessFile_skips_processed
    (fixedEnv (.ok "https://presigned-url") (.ok testResponse) none false)
    testProcessor "test-bucket" "audio/test-file.aac"
    (worldWith { FileIdentifier := "audio/test-file.aac", Status := StatusCompleted,
                 SourceBucket := "test-bucket", SourceKey := "audio/test-file.aac",
                 TranscriptText := "Existing transcription" })
    { FileIdentifier := "audio/test-file.aac", Status := StatusCompleted,
      SourceBucket := "test-bucket", SourceKey := "audio/test-file.aac",
      TranscriptText := "Existing transcription" }
    (by decide) (Or.inl rfl)
  ⟨h.1, h.2.1⟩

/-! ## The first write -/

/-- C2: when the lookup for `key` returns no record and no error, the run is the
lookup, then one `CreateTranscriptionItem` call with FileIdentifier = key,
Status = IN_PROGRESS, SourceBucket = bucket and SourceKey = key, then the rest;
no call before it goes to the object store or the transcription service, and no
call after it is a create. -/
theorem ProcessFile_creates_once (env : Env) (p : Processor) (bucket key : String)
    (w : World) (hget : (GetTranscriptionItem env key w).1 = .ok none) :
    ∃ result pre post,
      runEvents env p bucket key w
        = pre ++ Event.CreateTranscriptionItem
            { FileIdentifier := key, Status := StatusInProgress, SourceBucket := bucket,
              SourceKey := key } result :: post ∧
      (∀ e ∈ pre, e.isExternal = false ∧ e.isCreate = false) ∧
      (∀ e ∈ post, e.isCreate = false) := by
  obtain ⟨path, -, -, he, -⟩ := ProcessFile_path env p bucket key w
  rcases path_of_lookup env p bucket key w none path hget he with
    ⟨item, hitem, -⟩ | ⟨err, rfl⟩ | ⟨tm, tail, rfl⟩
  · cases hitem
  · refine ⟨some err, [.GetTranscriptionItem key (.ok none)], [], ?_, ?_, ?_⟩
    · rw [he]
      rfl
    · simp [Event.isExternal, Event.isPresign, Event.isTranscribe, Event.isUpload,
        Event.isCreate]
    · simp
  · refine ⟨none, [.GetTranscriptionItem key (.ok none)], tail.events p bucket key,
      ?_, ?_, Tail.events_isCreate p bucket key tail⟩
    · rw [he]
      rfl
    · simp [Event.isExternal, Event.isPresign, Event.isTranscribe, Event.isUpload,
        Event.isCreate]

theorem ProcessFile_creates_once_witness :
    (GetTranscriptionItem (fixedEnv (.ok "https://presigned-url") (.ok testResponse) none false)
      "audio/test-file.aac" emptyWorld).1 = .ok none ∧
    ∃ result pre post,
      runEvents (fixedEnv (.ok "https://presigned-url") (.ok testResponse) none false)
          testProcessor "test-bucket" "audio/test-file.aac" emptyWorld
        = pre ++ Event.CreateTranscriptionItem
            { FileIdentifier := "audio/test-file.aac", Status := StatusInProgress,
              SourceBucket := "test-bucket", SourceKey := "audio/test-file.aac" } result
            :: post ∧
      (∀ e ∈ pre, e.isExternal = false ∧ e.isCreate = false) ∧
      (∀ e ∈ post, e.isCreate = false) :=
  ⟨by decide,
    ProcessFile_creates_once
      (fixedEnv (.ok "https://presigned-url") (.ok testResponse) none false)
      testProcessor "test-bucket" "audio/test-file.aac" emptyWorld (by decide)⟩

/-! ## Failure of the pre-signed URL -/

/-- C3: in every run on a table the workflow produces in which
`GeneratePresignedURL` fails with `err` (so the run passed the guard) and no
write to the state store fails, `ProcessFile` returns an error wrapping `err`,
`TranscribeAudio` is not called, and the final record for the key has
Status = FAILED, the non-empty ErrorMessage
"Failed to generate pre-signed URL: " ++ err, and no TranscriptText. -/
theorem ProcessFile_presign_failure (env : Env) (p : Processor) (bucket key : String)
    (w : World) (b k : String) (n : Nat) (err : GoError)
    (hreach : Reachable w.table)
    (hp : Event.GeneratePresignedURL b k n (.error err) ∈ runEvents env p bucket key w)
    (hw : ∀ e ∈ runEvents env p bucket key w, e.writeFailed = false) :
    (ProcessFile env p bucket key w).1
      = some (.wrap "failed to generate pre-signed URL" err) ∧
    (∀ e ∈ runEvents env p bucket key w, e.isTranscribe = false) ∧
    ∃ item, finalRecord env p bucket key w = some item ∧
      item.Status = StatusFailed ∧
      item.ErrorMessage = "Failed to generate pre-signed URL: " ++ err.Error ∧
      item.ErrorMessage ≠ "" ∧
      item.TranscriptText = "" := by
  obtain ⟨path, hv, hr, he, ht⟩ := ProcessFile_path env p bucket key w
  rw [he] at hp hw ⊢
  obtain ⟨existingItem, tm, tm2, upd, rfl⟩ :=
    path_of_presign_error p bucket key path b k n err hp
  have hupd : upd = none := by
    cases upd with
    | none => rfl
    | some e =>
      have := hw (.UpdateTranscriptionItemStatus key StatusFailed "" ""
        ("Failed to generate pre-signed URL: " ++ err.Error) 0 (some e))
        (by simp [Path.events, Tail.events])
      simp [Event.writeFailed] at this
  subst hupd
  have hne : "Failed to generate pre-signed URL: " ++ err.Error ≠ "" :=
    append_ne_empty _ _ (by decide)
  obtain ⟨marked, hm, -, hnone, hsome⟩ := markTable_key p bucket key w.table existingItem tm hv.1
  have htext : marked.TranscriptText = "" := by
    cases hex : existingItem with
    | none => exact (hnone hex).1
    | some old =>
      exact ((hsome old hex).1).trans
        (Reachable.retried_record w.table hreach key old (hv.1.trans hex)
          (hv.2.1 old hex)).1
  refine ⟨by rw [hr]; rfl, ?_, updateFields marked StatusFailed "" ""
    ("Failed to generate pre-signed URL: " ++ err.Error) 0 tm2, ?_, rfl, ?_, ?_, ?_⟩
  · cases existingItem <;>
      simp [Path.events, Tail.events, markEvent, Event.isTranscribe]
  · unfold finalRecord
    rw [ht]
    exact tableAfterUpdate_key _ _ _ _ _ _ _ _ _ _ hm
  · simp [updateFields, hne]
  · simp only [updateFields, if_pos hne]
    exact hne
  · simpa [updateFields] using htext

theorem ProcessFile_presign_failure_witness :
    Reachable
      (ProcessFile (fixedEnv (.ok "https://presigned-url") (.error (.new "API error")) none false)
        testProcessor "test-bucket" "audio/test-file.aac" emptyWorld).2.table ∧
    (ProcessFile (fixedEnv (.error (.new "AccessDenied")) (.ok testResponse) none false)
        testProcessor "test-bucket" "audio/test-file.aac"
        (ProcessFile
          (fixedEnv (.ok "https://presigned-url") (.error (.new "API error")) none false)
          testProcessor "test-bucket" "audio/test-file.aac" emptyWorld).2).1
      = some (.wrap "failed to generate pre-signed URL" (.new "AccessDenied")) ∧
    ∃ item,
      finalRecord (fixedEnv (.error (.new "AccessDenied")) (.ok testResponse) none false)
        testProcessor "test-bucket" "audio/test-file.aac"
        (ProcessFile
          (fixedEnv (.ok "https://presigned-url") (.error (.new "API error")) none false)
          testProcessor "test-bucket" "audio/test-file.aac" emptyWorld).2 = some item ∧
      item.Status = StatusFailed ∧
      item.ErrorMessage = "Failed to generate pre-signed URL: AccessDenied" ∧
      item.TranscriptText = "" :=
  have hreach : Reachable
      (ProcessFile (fixedEnv (.ok "https://presigned-url") (.error (.new "API error")) none false)
        testProcessor "test-bucket" "audio/test-file.aac" emptyWorld).2.table :=
    Reachable.run _ _ _ _ emptyWorld Reachable.empty
  have h := ProcessFile_presign_failure
    (fixedEnv (.error (.new "AccessDenied")) (.ok testResponse) none false)
    testProcessor "test-bucket" "audio/test-file.aac"
    (ProcessFile (fixedEnv (.ok "https://presigned-url") (.error (.new "API error")) none false)
      testProcessor "test-bucket" "audio/test-file.aac" emptyWorld).2
    "test-bucket" "audio/test-file.aac" 3600 (.new "AccessDenied") hreach
    (by decide) (by decide)
  ⟨hreach, h.1, h.2.2.elim fun item hi => ⟨item, hi.1, hi.2.1, hi.2.2.1, hi.2.2.2.2⟩⟩

/-! ## Failure of the transcription call -/

/-- C4, as amended: in every run on a table the workflow produces in which
`TranscribeAudio` fails with `err` (so the pre-signed URL was issued),
`ProcessFile` returns an error wrapping `err`, and the run ends with the status
update (key, FAILED, transcript "", output location "", error message
"Transcription API error: " ++ err, processing time 0); when that update takes
effect the final record has Status = FAILED, that ErrorMessage, which ends with
the text of `err`, and ProcessingTime zero. -/
theorem ProcessFile_transcription_failure (env : Env) (p : Processor) (bucket key : String)
    (w : World) (audioURL : String) (err : GoError)
    (hreach : Reachable w.table)
    (h : Event.TranscribeAudio audioURL (.error err) ∈ runEvents env p bucket key w) :
    (ProcessFile env p bucket key w).1 = some (.wrap "transcription API error" err) ∧
    ∃ pre upd,
      runEvents env p bucket key w
        = pre ++ [.TranscribeAudio audioURL (.error err),
            .UpdateTranscriptionItemStatus key StatusFailed "" ""
              ("Transcription API error: " ++ err.Error) 0 upd] ∧
      Event.GeneratePresignedURL bucket key 3600 (.ok audioURL) ∈ pre ∧
      (upd = none →
        ∃ item, finalRecord env p bucket key w = some item ∧
          item.Status = StatusFailed ∧
          item.ErrorMessage = "Transcription API error: " ++ err.Error ∧
          err.Error.data <:+ item.ErrorMessage.data ∧
          item.ProcessingTime = 0) := by
  obtain ⟨path, hv, hr, he, ht⟩ := ProcessFile_path env p bucket key w
  rw [he] at h ⊢
  obtain ⟨existingItem, tm, tm2, upd, rfl⟩ :=
    path_of_transcribe_error p bucket key path audioURL err h
  have hne : "Transcription API error: " ++ err.Error ≠ "" :=
    append_ne_empty _ _ (by decide)
  obtain ⟨marked, hm, -, hnone, hsome⟩ := markTable_key p bucket key w.table existingItem tm hv.1
  have htime : marked.ProcessingTime = 0 := by
    cases hex : existingItem with
    | none => exact (hnone hex).2.2.2
    | some old =>
      exact ((hsome old hex).2.2.2).trans
        (Reachable.retried_record w.table hreach key old (hv.1.trans hex)
          (hv.2.1 old hex)).2.2
  refine ⟨by rw [hr]; rfl, [.GetTranscriptionItem key (.ok existingItem),
    markEvent bucket key existingItem none,
    .GeneratePresignedURL bucket key 3600 (.ok audioURL)], upd, ?_, ?_, ?_⟩
  · simp [Path.events, Tail.events]
  · simp
  · intro hupd
    subst hupd
    refine ⟨updateFields marked StatusFailed "" "" ("Transcription API error: " ++ err.Error)
      0 tm2, ?_, rfl, ?_, ?_, ?_⟩
    · unfold finalRecord
      rw [ht]
      exact tableAfterUpdate_key _ _ _ _ _ _ _ _ _ _ hm
    · simp [updateFields, hne]
    · simp only [updateFields, if_pos hne, String.data_append]
      exact List.suffix_append _ _
    · simpa [updateFields] using htime

theorem ProcessFile_transcription_failure_witness :
    (ProcessFile (fixedEnv (.ok "https://presigned-url") (.error (.new "API error")) none false)
        testProcessor "test-bucket" "audio/test-file.aac" emptyWorld).1
      = some (.wrap "transcription API error" (.new "API error")) ∧
    (runEvents (fixedEnv (.ok "https://presigned-url") (.error (.new "API error")) none false)
        testProcessor "test-bucket" "audio/test-file.aac" emptyWorld).getLast?
      = some (.UpdateTranscriptionItemStatus "audio/test-file.aac" StatusFailed "" ""
          "Transcription API error: API error" 0 none) ∧
    finalRecord (fixedEnv (.ok "https://presigned-url") (.error (.new "API error")) none false)
        testProcessor "test-bucket" "audio/test-file.aac" emptyWorld
      = some
          { FileIdentifier := "audio/test-file.aac", Status := "FAILED",
            SourceBucket := "test-bucket", SourceKey := "audio/test-file.aac",
            ErrorMessage := "Transcription API error: API error",
            CreatedAt := 1, UpdatedAt := 4 } :=
  ⟨(ProcessFile_transcription_failure
      (fixedEnv (.ok "https://presigned-url") (.error (.new "API error")) none false)
      testProcessor "test-bucket" "audio/test-file.aac" emptyWorld "https://presigned-url"
      (.new "API error") Reachable.empty (by decide)).1, by decide, by decide⟩

/-- C4 as stated fails: from an empty table `TranscribeAudio` fails and the
FAILED update itself fails; `ProcessFile` returns an error and the final record
is left IN_PROGRESS with no error message. -/
theorem ProcessFile_transcription_failure_final_record :
    runEvents (fixedEnv (.ok "https://presigned-url") (.error (.new "API error")) none true)
        testProcessor "test-bucket" "audio/test-file.aac" emptyWorld
      = [.GetTranscriptionItem "audio/test-file.aac" (.ok none),
         .CreateTranscriptionItem
            { FileIdentifier := "audio/test-file.aac", Status := StatusInProgress,
              SourceBucket := "test-bucket", SourceKey := "audio/test-file.aac" } none,
         .GeneratePresignedURL "test-bucket" "audio/test-file.aac" 3600
            (.ok "https://presigned-url"),
         .TranscribeAudio "https://presigned-url" (.error (.new "API error")),
         .UpdateTranscriptionItemStatus "audio/test-file.aac" StatusFailed "" ""
            "Transcription API error: API error" 0
            (some (.wrap "failed to update item in DynamoDB"
              (.new "ProvisionedThroughputExceededException")))] ∧
    (ProcessFile (fixedEnv (.ok "https://presigned-url") (.error (.new "API error")) none true)
        testProcessor "test-bucket" "audio/test-file.aac" emptyWorld).1
      = some (.wrap "transcription API error" (.new "API error")) ∧
    finalRecord (fixedEnv (.ok "https://presigned-url") (.error (.new "API error")) none true)
        testProcessor "test-bucket" "audio/test-file.aac" emptyWorld
      = some
          { FileIdentifier := "audio/test-file.aac", Status := "IN_PROGRESS",
            SourceBucket := "test-bucket", SourceKey := "audio/test-file.aac",
            CreatedAt := 1, UpdatedAt := 1 } := by
  decide

/-! ## Failure of the upload -/

/-- C5, as amended: in every run on a table the workflow produces in which
`TranscribeAudio` succeeds with `resp` and the `UploadText` call fails,
`ProcessFile` returns nil and the run ends with the failed upload followed by
the status update (key, COMPLETED, resp.Text, output location "", error
message ""); when that update takes effect the final record has
Status = COMPLETED, TranscriptText = resp.Text and an empty OutputLocation. -/
theorem ProcessFile_upload_failure (env : Env) (p : Processor) (bucket key : String)
    (w : World) (audioURL : String) (resp : ElevenLabsResponse) (b k c : String)
    (uerr : GoError)
    (hreach : Reachable w.table)
    (ht : Event.TranscribeAudio audioURL (.ok resp) ∈ runEvents env p bucket key w)
    (hu : Event.UploadText b k c (some uerr) ∈ runEvents env p bucket key w) :
    (ProcessFile env p bucket key w).1 = none ∧
    ∃ pre processingTime upd,
      runEvents env p bucket key w
        = pre ++ [.UploadText p.outputBucket (outputKey key) resp.Text (some uerr),
            .UpdateTranscriptionItemStatus key StatusCompleted resp.Text "" "" processingTime
              upd] ∧
      (upd = none →
        ∃ item, finalRecord env p bucket key w = some item ∧
          item.Status = StatusCompleted ∧
          item.TranscriptText = resp.Text ∧
          item.OutputLocation = "") := by
  obtain ⟨path, hv, hr, he, htab⟩ := ProcessFile_path env p bucket key w
  rw [he] at ht hu ⊢
  obtain ⟨existingItem, tm, up, pt, tm2, upd, rfl⟩ :=
    path_of_transcribe_ok p bucket key path audioURL resp ht
  have hup : up = some (some uerr) := by
    cases up with
    | none => cases existingItem <;> simp [Path.events, Tail.events, markEvent, uploadEvents] at hu
    | some u =>
      cases existingItem <;>
        simp [Path.events, Tail.events, markEvent, uploadEvents] at hu <;>
        simp [hu.2.2.2]
  subst hup
  have htext : resp.Text ≠ "" := by
    intro hempty
    have := hv.2.2.mpr (Or.inr hempty)
    cases this
  obtain ⟨marked, hm, -, hnone, hsome⟩ := markTable_key p bucket key w.table existingItem tm hv.1
  have hloc : marked.OutputLocation = "" := by
    cases hex : existingItem with
    | none => exact (hnone hex).2.1
    | some old =>
      exact ((hsome old hex).2.1).trans
        (Reachable.retried_record w.table hreach key old (hv.1.trans hex)
          (hv.2.1 old hex)).2.1
  refine ⟨by rw [hr]; rfl, [.GetTranscriptionItem key (.ok existingItem),
    markEvent bucket key existingItem none,
    .GeneratePresignedURL bucket key 3600 (.ok audioURL),
    .TranscribeAudio audioURL (.ok resp)], pt, upd, ?_, ?_⟩
  · simp [Path.events, Tail.events, uploadEvents, outputLocationOf]
  · intro hupd
    subst hupd
    refine ⟨updateFields marked StatusCompleted resp.Text "" "" pt tm2, ?_, rfl, ?_, ?_⟩
    · unfold finalRecord
      rw [htab]
      exact tableAfterUpdate_key _ _ _ _ _ _ _ _ _ _ hm
    · simp [updateFields, htext]
    · simpa [updateFields] using hloc

theorem ProcessFile_upload_failure_witness :
    (ProcessFile
        (fixedEnv (.ok "https://presigned-url") (.ok testResponse) (some (.new "SlowDown")) false)
        testProcessor "test-bucket" "audio/test-file.aac" emptyWorld).1 = none ∧
    (finalRecord
        (fixedEnv (.ok "https://presigned-url") (.ok testResponse) (some (.new "SlowDown")) false)
        testProcessor "test-bucket" "audio/test-file.aac" emptyWorld).map
      (fun item => (item.Status, item.TranscriptText, item.OutputLocation))
      = some ("COMPLETED", "This is a test transcription.", "") :=
  ⟨(ProcessFile_upload_failure
      (fixedEnv (.ok "https://presigned-url") (.ok testResponse) (some (.new "SlowDown")) false)
      testProcessor "test-bucket" "audio/test-file.aac" emptyWorld "https://presigned-url"
      testResponse "test-output-bucket" "transcripts/test-file.txt"
      "This is a test transcription." (.new "SlowDown") Reachable.empty (by decide)
      (by decide)).1,
    by decide⟩

/-- C5 as stated fails: from an empty table `TranscribeAudio` succeeds, the
upload fails and the COMPLETED update fails; `ProcessFile` returns nil and the
final record is left IN_PROGRESS with no transcript. -/
theorem ProcessFile_upload_failure_final_record :
    runEvents
        (fixedEnv (.ok "https://presigned-url") (.ok testResponse) (some (.new "SlowDown")) true)
        testProcessor "test-bucket" "audio/test-file.aac" emptyWorld
      = [.GetTranscriptionItem "audio/test-file.aac" (.ok none),
         .CreateTranscriptionItem
            { FileIdentifier := "audio/test-file.aac", Status := StatusInProgress,
              SourceBucket := "test-bucket", SourceKey := "audio/test-file.aac" } none,
         .GeneratePresignedURL "test-bucket" "audio/test-file.aac" 3600
            (.ok "https://presigned-url"),
         .TranscribeAudio "https://presigned-url" (.ok testResponse),
         .UploadText "test-output-bucket" "transcripts/test-file.txt"
            "This is a test transcription." (some (.new "SlowDown")),
         .UpdateTranscriptionItemStatus "audio/test-file.aac" StatusCompleted
            "This is a test transcription." "" "" 4
            (some (.wrap "failed to update item in DynamoDB"
              (.new "ProvisionedThroughputExceededException")))] ∧
    (ProcessFile
        (fixedEnv (.ok "https://presigned-url") (.ok testResponse) (some (.new "SlowDown"))
          true)
        testProcessor "test-bucket" "audio/test-file.aac" emptyWorld).1 = none ∧
    finalRecord
        (fixedEnv (.ok "https://presigned-url") (.ok testResponse) (some (.new "SlowDown"))
          true)
        testProcessor "test-bucket" "audio/test-file.aac" emptyWorld
      = some
          { FileIdentifier := "audio/test-file.aac", Status := "IN_PROGRESS",
            SourceBucket := "test-bucket", SourceKey := "audio/test-file.aac",
            CreatedAt := 1, UpdatedAt := 1 } := by
  decide

/-! ## The output key -/

/-- C6: in every run in which `TranscribeAudio` returns `resp` and an upload
succeeds, the output bucket B and the text are non-empty, the upload is the one
upload of the run, it is called with (B, "transcripts/" ++ stem ++ ".txt",
resp.Text) where stem is the base name of the key with its final extension
removed, and the run ends with the COMPLETED update whose OutputLocation is
"s3://" ++ B ++ "/" ++ that output key. -/
theorem ProcessFile_upload_success (env : Env) (p : Processor) (bucket key : String)
    (w : World) (audioURL : String) (resp : ElevenLabsResponse) (b k c : String)
    (ht : Event.TranscribeAudio audioURL (.ok resp) ∈ runEvents env p bucket key w)
    (hu : Event.UploadText b k c none ∈ runEvents env p bucket key w) :
    p.outputBucket ≠ "" ∧ resp.Text ≠ "" ∧
    b = p.outputBucket ∧ c = resp.Text ∧
    (∃ stem, stem ++ Ext (Base key) = Base key ∧ k = "transcripts/" ++ stem ++ ".txt") ∧
    ∃ pre processingTime upd,
      runEvents env p bucket key w
        = pre ++ [.UploadText b k c none,
            .UpdateTranscriptionItemStatus key StatusCompleted resp.Text
              ("s3://" ++ b ++ "/" ++ k) "" processingTime upd] ∧
      ∀ e ∈ pre, e.isUpload = false := by
  obtain ⟨path, hv, hr, he, htab⟩ := ProcessFile_path env p bucket key w
  rw [he] at ht hu ⊢
  obtain ⟨existingItem, tm, up, pt, tm2, upd, rfl⟩ :=
    path_of_transcribe_ok p bucket key path audioURL resp ht
  have hup : up = some none ∧ b = p.outputBucket ∧ k = outputKey key ∧ c = resp.Text := by
    cases up with
    | none => cases existingItem <;> simp [Path.events, Tail.events, markEvent, uploadEvents] at hu
    | some u =>
      cases existingItem <;>
        simp [Path.events, Tail.events, markEvent, uploadEvents] at hu <;>
        simp [hu]
  obtain ⟨rfl, rfl, rfl, rfl⟩ := hup
  have hcond : ¬ (p.outputBucket = "" ∨ resp.Text = "") := by
    intro hc
    have := hv.2.2.mpr hc
    cases this
  obtain ⟨stem, hstem⟩ := Ext_suffix (Base key)
  refine ⟨fun h => hcond (Or.inl h), fun h => hcond (Or.inr h), rfl, rfl, ⟨stem, hstem, ?_⟩,
    [.GetTranscriptionItem key (.ok existingItem), markEvent bucket key existingItem none,
      .GeneratePresignedURL bucket key 3600 (.ok audioURL),
      .TranscribeAudio audioURL (.ok resp)], pt, upd, ?_, ?_⟩
  · unfold outputKey
    have hd : (Base key).data = stem.data ++ (Ext (Base key)).data := by
      rw [← String.data_append, hstem]
    have hs : (⟨(Base key).data.take ((Base key).data.length - (Ext (Base key)).data.length)⟩
        : String) = stem := by
      apply String.ext
      rw [hd]
      simp
    simp only [hs]
  · simp [Path.events, Tail.events, uploadEvents, outputLocationOf]
  · cases existingItem <;> simp [markEvent, Event.isUpload]

theorem ProcessFile_upload_success_witness :
    runEvents (fixedEnv (.ok "https://presigned-url") (.ok testResponse) none false)
        testProcessor "test-bucket" "audio/test-file.aac" emptyWorld
      = [.GetTranscriptionItem "audio/test-file.aac" (.ok none),
         .CreateTranscriptionItem
            { FileIdentifier := "audio/test-file.aac", Status := StatusInProgress,
              SourceBucket := "test-bucket", SourceKey := "audio/test-file.aac" } none,
         .GeneratePresignedURL "test-bucket" "audio/test-file.aac" 3600
            (.ok "https://presigned-url"),
         .TranscribeAudio "https://presigned-url" (.ok testResponse),
         .UploadText "test-output-bucket" "transcripts/test-file.txt"
            "This is a test transcription." none,
         .UpdateTranscriptionItemStatus "audio/test-file.aac" StatusCompleted
            "This is a test transcription."
            "s3://test-output-bucket/transcripts/test-file.txt" "" 4 none] ∧
    testProcessor.outputBucket ≠ "" ∧ testResponse.Text ≠ "" :=
  have h := ProcessFile_upload_success
    (fixedEnv (.ok "https://presigned-url") (.ok testResponse) none false)
    testProcessor "test-bucket" "audio/test-file.aac" emptyWorld "https://presigned-url"
    testResponse "test-output-bucket" "transcripts/test-file.txt"
    "This is a test transcription." (by decide) (by decide)
  ⟨by decide, h.1, h.2.1⟩

/-! ## The handler -/

/-- C7: `isValidAudioFile key` is true exactly when the extension of `key` (the
suffix starting at the last dot of its final path element, which is what
`filepath.Ext` returns), lower-cased, is one of .aac, .mp3, .wav, .flac, .ogg,
.m4a; two keys whose extensions differ only in letter case get the same answer;
"UPPERCASE.WAV" is accepted, "document.pdf", "noextension" and ".htaccess" are
rejected. -/
theorem isValidAudioFile_iff (unicodeLower : Char → Char) :
    (∀ key, Ext key = extension key) ∧
    (∀ key, isValidAudioFile unicodeLower key = true ↔
      ToLower unicodeLower (extension key)
        ∈ [".aac", ".mp3", ".wav", ".flac", ".ogg", ".m4a"]) ∧
    (∀ key₁ key₂,
      (extension key₁).data.map Char.toLower = (extension key₂).data.map Char.toLower →
        isValidAudioFile unicodeLower key₁ = isValidAudioFile unicodeLower key₂) ∧
    isValidAudioFile unicodeLower "UPPERCASE.WAV" = true ∧
    isValidAudioFile unicodeLower "document.pdf" = false ∧
    isValidAudioFile unicodeLower "noextension" = false ∧
    isValidAudioFile unicodeLower ".htaccess" = false := by
  refine ⟨Ext_eq_extension, ?_, ?_, rfl, rfl, rfl, rfl⟩
  · intro key
    unfold isValidAudioFile
    rw [Ext_eq_extension]
    generalize ToLower unicodeLower (extension key) = ext
    simp only [supportedExts, List.lookup]
    repeat' split
    all_goals simp_all
  · intro key₁ key₂ h
    unfold isValidAudioFile
    rw [Ext_eq_extension, Ext_eq_extension, ToLower_congr unicodeLower _ _ h]

theorem isValidAudioFile_iff_witness :
    isValidAudioFile id "path/to/Song.Mp3" = isValidAudioFile id "path/to/Song.mp3" ∧
    isValidAudioFile id "path/to/Song.mp3" = true :=
  ⟨(isValidAudioFile_iff id).2.2.1 "path/to/Song.Mp3" "path/to/Song.mp3" (by decide),
    by decide⟩

/-- C8: for every batch of records, every processor and every state,
`HandleS3Event` returns nil; in particular with `ProcessFile` as the processor,
whatever the outside world answers. -/
theorem HandleS3Event_returns_nil (unicodeLower : Char → Char) (s3Event : S3Event) :
    (∀ (σ : Type) (processFile : String → String → σ → Option GoError × σ) (s : σ),
      (HandleS3Event unicodeLower processFile s3Event s).1 = none) ∧
    (∀ (env : Env) (p : Processor) (w : World),
      (HandleS3Event unicodeLower (ProcessFile env p) s3Event w).1 = none) :=
  ⟨fun _ _ _ => rfl, fun _ _ _ => rfl⟩

/-- C9: the calls `HandleS3Event` makes to the processor are, in batch order,
the (bucket name, URL-decoded key) of the records whose key satisfies
`isValidAudioFile`, one call per such record and none for the others, whatever
the processor returns; writing the calls down does not change what the handler
does to the state. -/
theorem HandleS3Event_calls {σ : Type} (unicodeLower : Char → Char)
    (processFile : String → String → σ → Option GoError × σ) (s3Event : S3Event) (s : σ)
    (log : List (String × String)) :
    (HandleS3Event unicodeLower (recording processFile) s3Event (s, log)).2.2
      = log ++ (s3Event.Records.filter
          (fun record => isValidAudioFile unicodeLower record.S3.Object.URLDecodedKey)).map
          (fun record => (record.S3.Bucket.Name, record.S3.Object.URLDecodedKey)) ∧
    (HandleS3Event unicodeLower (recording processFile) s3Event (s, log)).2.1
      = (HandleS3Event unicodeLower processFile s3Event s).2 := by
  unfold HandleS3Event
  simp only
  generalize s3Event.Records = records
  induction records generalizing s log with
  | nil => simp [handleRecords]
  | cons record rest ih =>
    unfold handleRecords
    by_cases hv : isValidAudioFile unicodeLower record.S3.Object.URLDecodedKey = true
    · simp only [hv, Bool.not_true, Bool.false_eq_true, if_false, List.filter_cons_of_pos,
        List.map_cons]
      rcases hp : processFile record.S3.Bucket.Name record.S3.Object.URLDecodedKey s with
        ⟨r, s'⟩
      have hrec : recording processFile record.S3.Bucket.Name record.S3.Object.URLDecodedKey
          (s, log)
          = (r, (s', log ++ [(record.S3.Bucket.Name, record.S3.Object.URLDecodedKey)])) := by
        simp [recording, hp]
      rw [hrec]
      cases r <;>
        simpa using ih s' (log ++ [(record.S3.Bucket.Name, record.S3.Object.URLDecodedKey)])
    · have hf : isValidAudioFile unicodeLower record.S3.Object.URLDecodedKey = false := by
        simpa using hv
      simp only [hf, Bool.not_false, if_true]
      have hfil : (record :: rest).filter
          (fun record => isValidAudioFile unicodeLower record.S3.Object.URLDecodedKey)
          = rest.filter
            (fun record => isValidAudioFile unicodeLower record.S3.Object.URLDecodedKey) := by
        simp [List.filter_cons, hf]
      rw [hfil]
      exact ih s log

/-! ## The final update is best effort -/

/-- C10: in every run in which `TranscribeAudio` succeeds, `ProcessFile` returns
nil; the last call of the run is the COMPLETED status update, and its result,
success or failure, does not change what `ProcessFile` returns. -/
theorem ProcessFile_succeeds_after_transcription (env : Env) (p : Processor)
    (bucket key : String) (w : World) (audioURL : String) (resp : ElevenLabsResponse)
    (h : Event.TranscribeAudio audioURL (.ok resp) ∈ runEvents env p bucket key w) :
    (ProcessFile env p bucket key w).1 = none ∧
    ∃ pre outputLocation processingTime upd,
      runEvents env p bucket key w
        = pre ++ [.UpdateTranscriptionItemStatus key StatusCompleted resp.Text outputLocation ""
            processingTime upd] := by
  obtain ⟨path, -, hr, he, -⟩ := ProcessFile_path env p bucket key w
  rw [he] at h ⊢
  obtain ⟨existingItem, tm, up, pt, tm2, upd, rfl⟩ :=
    path_of_transcribe_ok p bucket key path audioURL resp h
  refine ⟨by rw [hr]; rfl, [.GetTranscriptionItem key (.ok existingItem),
    markEvent bucket key existingItem none, .GeneratePresignedURL bucket key 3600 (.ok audioURL),
    .TranscribeAudio audioURL (.ok resp)] ++ uploadEvents p key resp up,
    outputLocationOf p key up, pt, upd, ?_⟩
  simp [Path.events, Tail.events]

theorem ProcessFile_succeeds_after_transcription_witness :
    Event.TranscribeAudio "https://presigned-url" (.ok testResponse)
      ∈ runEvents (fixedEnv (.ok "https://presigned-url") (.ok testResponse) none true)
          testProcessor "test-bucket" "audio/test-file.aac" emptyWorld ∧
    (runEvents (fixedEnv (.ok "https://presigned-url") (.ok testResponse) none true)
        testProcessor "test-bucket" "audio/test-file.aac" emptyWorld).getLast?
      = some (.UpdateTranscriptionItemStatus "audio/test-file.aac" StatusCompleted
          "This is a test transcription." "s3://test-output-bucket/transcripts/test-file.txt"
          "" 4
          (some (.wrap "failed to update item in DynamoDB"
            (.new "ProvisionedThroughputExceededException")))) ∧
    (ProcessFile (fixedEnv (.ok "https://presigned-url") (.ok testResponse) none true)
        testProcessor "test-bucket" "audio/test-file.aac" emptyWorld).1 = none :=
  ⟨by decide, by decide,
    (ProcessFile_succeeds_after_transcription
      (fixedEnv (.ok "https://presigned-url") (.ok testResponse) none true)
      testProcessor "test-bucket" "audio/test-file.aac" emptyWorld "https://presigned-url"
      testResponse (by decide)).1⟩

/-! ## The reported error -/

/-- C11: when `GeneratePresignedURL` fails with `err`, `ProcessFile` returns the
error "failed to generate pre-signed URL: " ++ err, which unwraps to `err`; when
`TranscribeAudio` fails with `err` it returns "transcription API error: " ++ err,
which unwraps to `err`.  The result of the FAILED status update that follows
does not enter the returned error: two runs that fail with the same `err` return
the same error, whatever their updates did. -/
theorem ProcessFile_reports_original_error (env : Env) (p : Processor) (bucket key : String)
    (w : World) (err : GoError) :
    (∀ b k n, Event.GeneratePresignedURL b k n (.error err) ∈ runEvents env p bucket key w →
      (ProcessFile env p bucket key w).1
          = some (.wrap "failed to generate pre-signed URL" err) ∧
        (GoError.wrap "failed to generate pre-signed URL" err).Error
          = "failed to generate pre-signed URL: " ++ err.Error ∧
        (GoError.wrap "failed to generate pre-signed URL" err).Unwrap = some err ∧
        ∀ (env₂ : Env) (p₂ : Processor) (bucket₂ key₂ : String) (w₂ : World) b₂ k₂ n₂,
          Event.GeneratePresignedURL b₂ k₂ n₂ (.error err)
              ∈ runEvents env₂ p₂ bucket₂ key₂ w₂ →
            (ProcessFile env₂ p₂ bucket₂ key₂ w₂).1 = (ProcessFile env p bucket key w).1) ∧
    (∀ audioURL, Event.TranscribeAudio audioURL (.error err) ∈ runEvents env p bucket key w →
      (ProcessFile env p bucket key w).1 = some (.wrap "transcription API error" err) ∧
        (GoError.wrap "transcription API error" err).Error
          = "transcription API error: " ++ err.Error ∧
        (GoError.wrap "transcription API error" err).Unwrap = some err ∧
        ∀ (env₂ : Env) (p₂ : Processor) (bucket₂ key₂ : String) (w₂ : World) audioURL₂,
          Event.TranscribeAudio audioURL₂ (.error err) ∈ runEvents env₂ p₂ bucket₂ key₂ w₂ →
            (ProcessFile env₂ p₂ bucket₂ key₂ w₂).1 = (ProcessFile env p bucket key w).1) := by
  have hpre : ∀ (env : Env) (p : Processor) (bucket key : String) (w : World) b k n,
      Event.GeneratePresignedURL b k n (.error err) ∈ runEvents env p bucket key w →
      (ProcessFile env p bucket key w).1
        = some (.wrap "failed to generate pre-signed URL" err) := by
    intro env p bucket key w b k n h
    obtain ⟨path, -, hr, he, -⟩ := ProcessFile_path env p bucket key w
    rw [he] at h
    obtain ⟨existingItem, tm, tm2, upd, rfl⟩ :=
      path_of_presign_error p bucket key path b k n err h
    rw [hr]
    rfl
  have htr : ∀ (env : Env) (p : Processor) (bucket key : String) (w : World) audioURL,
      Event.TranscribeAudio audioURL (.error err) ∈ runEvents env p bucket key w →
      (ProcessFile env p bucket key w).1 = some (.wrap "transcription API error" err) := by
    intro env p bucket key w audioURL h
    obtain ⟨path, -, hr, he, -⟩ := ProcessFile_path env p bucket key w
    rw [he] at h
    obtain ⟨existingItem, tm, tm2, upd, rfl⟩ :=
      path_of_transcribe_error p bucket key path audioURL err h
    rw [hr]
    rfl
  refine ⟨fun b k n h => ⟨hpre env p bucket key w b k n h, rfl, rfl, ?_⟩,
    fun audioURL h => ⟨htr env p bucket key w audioURL h, rfl, rfl, ?_⟩⟩
  · intro env₂ p₂ bucket₂ key₂ w₂ b₂ k₂ n₂ h₂
    rw [hpre env p bucket key w b k n h, hpre env₂ p₂ bucket₂ key₂ w₂ b₂ k₂ n₂ h₂]
  · intro env₂ p₂ bucket₂ key₂ w₂ audioURL₂ h₂
    rw [htr env p bucket key w audioURL h, htr env₂ p₂ bucket₂ key₂ w₂ audioURL₂ h₂]

theorem ProcessFile_reports_original_error_witness :
    (ProcessFile (fixedEnv (.error (.new "AccessDenied")) (.ok testResponse) none true)
        testProcessor "test-bucket" "audio/test-file.aac" emptyWorld).1
      = (ProcessFile (fixedEnv (.error (.new "AccessDenied")) (.ok testResponse) none false)
          testProcessor "test-bucket" "audio/test-file.aac" emptyWorld).1 ∧
    (ProcessFile (fixedEnv (.ok "https://presigned-url") (.error (.new "API error")) none true)
        testProcessor "test-bucket" "audio/test-file.aac" emptyWorld).1
      = (ProcessFile
          (fixedEnv (.ok "https://presigned-url") (.error (.new "API error")) none false)
          testProcessor "test-bucket" "audio/test-file.aac" emptyWorld).1 ∧
    (runEvents (fixedEnv (.error (.new "AccessDenied")) (.ok testResponse) none true)
        testProcessor "test-bucket" "audio/test-file.aac" emptyWorld).getLast?
      = some (.UpdateTranscriptionItemStatus "audio/test-file.aac" StatusFailed "" ""
          "Failed to generate pre-signed URL: AccessDenied" 0
          (some (.wrap "failed to update item in DynamoDB"
            (.new "ProvisionedThroughputExceededException")))) :=
  ⟨((ProcessFile_reports_original_error
      (fixedEnv (.error (.new "AccessDenied")) (.ok testResponse) none false)
      testProcessor "test-bucket" "audio/test-file.aac" emptyWorld (.new "AccessDenied")).1
      "test-bucket" "audio/test-file.aac" 3600 (by decide)).2.2.2
      (fixedEnv (.error (.new "AccessDenied")) (.ok testResponse) none true)
      testProcessor "test-bucket" "audio/test-file.aac" emptyWorld
      "test-bucket" "audio/test-file.aac" 3600 (by decide),
    ((ProcessFile_reports_original_error
      (fixedEnv (.ok "https://presigned-url") (.error (.new "API error")) none false)
      testProcessor "test-bucket" "audio/test-file.aac" emptyWorld (.new "API error")).2
      "https://presigned-url" (by decide)).2.2.2
      (fixedEnv (.ok "https://presigned-url") (.error (.new "API error")) none true)
      testProcessor "test-bucket" "audio/test-file.aac" emptyWorld
      "https://presigned-url" (by decide),
    by decide⟩

/-! ## Status writes of one run -/

/-- C15: the statuses one run of `ProcessFile` writes to the state store are, in
order, none, or IN_PROGRESS alone (by a create or an update), or IN_PROGRESS
followed by one of FAILED and COMPLETED; a write of FAILED or COMPLETED is the
last call of the run, so no status write follows it. -/
theorem ProcessFile_status_writes (env : Env) (p : Processor) (bucket key : String)
    (w : World) :
    ((runEvents env p bucket key w).filterMap Event.statusWritten = [] ∨
      (runEvents env p bucket key w).filterMap Event.statusWritten = [StatusInProgress] ∨
      (runEvents env p bucket key w).filterMap Event.statusWritten
        = [StatusInProgress, StatusFailed] ∨
      (runEvents env p bucket key w).filterMap Event.statusWritten
        = [StatusInProgress, StatusCompleted]) ∧
    ∀ e ∈ (runEvents env p bucket key w).dropLast,
      e.statusWritten ≠ some StatusFailed ∧ e.statusWritten ≠ some StatusCompleted := by
  obtain ⟨path, -, -, he, -⟩ := ProcessFile_path env p bucket key w
  rw [he]
  have hne1 : ¬ StatusInProgress = StatusFailed := by decide
  have hne2 : ¬ StatusInProgress = StatusCompleted := by decide
  cases path with
  | lookupFailed err => simp [Path.events, Event.statusWritten]
  | skipped item => simp [Path.events, Event.statusWritten]
  | markFailed existingItem err =>
    cases existingItem <;>
      simp [Path.events, markEvent, newItem, Event.statusWritten]
  | marked existingItem tm tail =>
    cases tail with
    | presignFailed err tm2 upd =>
      cases existingItem <;>
        simp [Path.events, Tail.events, markEvent, newItem, Event.statusWritten, hne1, hne2]
    | transcribeFailed audioURL err tm2 upd =>
      cases existingItem <;>
        simp [Path.events, Tail.events, markEvent, newItem, Event.statusWritten, hne1, hne2]
    | transcribed audioURL resp up pt tm2 upd =>
      cases existingItem <;> rcases up with _ | u <;>
        simp [Path.events, Tail.events, markEvent, newItem, uploadEvents,
          Event.statusWritten, hne1, hne2]

/-! ## The upload -/

/-- C20: one run of `ProcessFile` calls `UploadText` at most once; a call to it
means that the output bucket is non-empty and that `TranscribeAudio` succeeded
with a non-empty text, which is the content uploaded to that bucket; and when
`TranscribeAudio` succeeds while the output bucket or the returned text is
empty, the run has no upload and ends with the COMPLETED update carrying an
empty OutputLocation. -/
theorem ProcessFile_upload_at_most_once (env : Env) (p : Processor) (bucket key : String)
    (w : World) :
    ((runEvents env p bucket key w).filter Event.isUpload).length ≤ 1 ∧
    (∀ b k c r, Event.UploadText b k c r ∈ runEvents env p bucket key w →
      p.outputBucket ≠ "" ∧ b = p.outputBucket ∧
        ∃ audioURL resp,
          Event.TranscribeAudio audioURL (.ok resp) ∈ runEvents env p bucket key w ∧
            resp.Text ≠ "" ∧ c = resp.Text) ∧
    (∀ audioURL resp,
      Event.TranscribeAudio audioURL (.ok resp) ∈ runEvents env p bucket key w →
      (p.outputBucket = "" ∨ resp.Text = "") →
        (∀ e ∈ runEvents env p bucket key w, e.isUpload = false) ∧
          ∃ pre processingTime upd,
            runEvents env p bucket key w
              = pre ++ [.UpdateTranscriptionItemStatus key StatusCompleted resp.Text "" ""
                  processingTime upd]) := by
  obtain ⟨path, hv, -, he, -⟩ := ProcessFile_path env p bucket key w
  rw [he]
  refine ⟨?_, ?_, ?_⟩
  · cases path with
    | lookupFailed err => simp [Path.events, Event.isUpload]
    | skipped item => simp [Path.events, Event.isUpload]
    | markFailed existingItem err =>
      cases existingItem <;> simp [Path.events, markEvent, Event.isUpload]
    | marked existingItem tm tail =>
      cases tail with
      | presignFailed err tm2 upd =>
        cases existingItem <;> simp [Path.events, Tail.events, markEvent, Event.isUpload]
      | transcribeFailed audioURL err tm2 upd =>
        cases existingItem <;> simp [Path.events, Tail.events, markEvent, Event.isUpload]
      | transcribed audioURL resp up pt tm2 upd =>
        cases existingItem <;> rcases up with _ | u <;>
          simp [Path.events, Tail.events, markEvent, uploadEvents, Event.isUpload]
  · intro b k c r h
    cases path with
    | lookupFailed err => simp [Path.events] at h
    | skipped item => simp [Path.events] at h
    | markFailed existingItem err =>
      cases existingItem <;> simp [Path.events, markEvent] at h
    | marked existingItem tm tail =>
      cases tail with
      | presignFailed err tm2 upd =>
        cases existingItem <;> simp [Path.events, Tail.events, markEvent] at h
      | transcribeFailed audioURL err tm2 upd =>
        cases existingItem <;> simp [Path.events, Tail.events, markEvent] at h
      | transcribed audioURL resp up pt tm2 upd =>
        have hcond : up ≠ none → p.outputBucket ≠ "" ∧ resp.Text ≠ "" := by
          intro hup
          constructor
          · intro hb
            exact hup (hv.2.2.mpr (Or.inl hb))
          · intro ht
            exact hup (hv.2.2.mpr (Or.inr ht))
        rcases up with _ | u
        · cases existingItem <;>
            simp [Path.events, Tail.events, markEvent, uploadEvents] at h
        · obtain ⟨hb, ht⟩ := hcond (by simp)
          have hbc : b = p.outputBucket ∧ c = resp.Text := by
            cases existingItem <;>
              simp [Path.events, Tail.events, markEvent, uploadEvents] at h <;>
              exact ⟨h.1, h.2.2.1⟩
          refine ⟨hb, hbc.1, audioURL, resp, ?_, ht, hbc.2⟩
          simp [Path.events, Tail.events]
  · intro audioURL resp h hempty
    obtain ⟨existingItem, tm, up, pt, tm2, upd, rfl⟩ :=
      path_of_transcribe_ok p bucket key path audioURL resp h
    have hup : up = none := hv.2.2.mpr hempty
    subst hup
    refine ⟨?_, [.GetTranscriptionItem key (.ok existingItem),
      markEvent bucket key existingItem none,
      .GeneratePresignedURL bucket key 3600 (.ok audioURL),
      .TranscribeAudio audioURL (.ok resp)], pt, upd, ?_⟩
    · cases existingItem <;>
        simp [Path.events, Tail.events, markEvent, uploadEvents, Event.isUpload]
    · simp [Path.events, Tail.events, uploadEvents, outputLocationOf]

/-! ## A second run -/

/-- A run whose lookup finds a COMPLETED or IN_PROGRESS record is the lookup
alone and returns nil. -/
theorem ProcessFile_guarded (env : Env) (p : Processor) (bucket key : String) (w : World)
    (item : TranscriptionItem)
    (hget : (GetTranscriptionItem env key w).1 = .ok (some item))
    (hst : item.Status = StatusCompleted ∨ item.Status = StatusInProgress) :
    (ProcessFile env p bucket key w).1 = none ∧
    runEvents env p bucket key w = [Event.GetTranscriptionItem key (.ok (some item))] := by
  have h2 : GetTranscriptionItem env key w
      = (.ok (some item), w.record env (.GetTranscriptionItem key (.ok (some item)))) := by
    rw [← hget]
    rfl
  simp [runEvents, ProcessFile, h2, hst, World.record]

/-- A run that returns nil leaves under `key` a record that is COMPLETED or
IN_PROGRESS. -/
theorem ProcessFile_success_leaves_guarded (env : Env) (p : Processor) (bucket key : String)
    (w : World) (h : (ProcessFile env p bucket key w).1 = none) :
    ∃ item, (ProcessFile env p bucket key w).2.table key = some item ∧
      (item.Status = StatusCompleted ∨ item.Status = StatusInProgress) := by
  obtain ⟨path, hv, hr, -, ht⟩ := ProcessFile_path env p bucket key w
  rw [hr] at h
  rw [ht]
  cases path with
  | lookupFailed err => simp [Path.result] at h
  | skipped item => exact ⟨item, hv.1, hv.2⟩
  | markFailed existingItem err => cases existingItem <;> simp [Path.result] at h
  | marked existingItem tm tail =>
    obtain ⟨marked, hm, hms, -, -⟩ :=
      markTable_key p bucket key w.table existingItem tm hv.1
    cases tail with
    | presignFailed err tm2 upd => simp [Path.result, Tail.result] at h
    | transcribeFailed audioURL err tm2 upd => simp [Path.result, Tail.result] at h
    | transcribed audioURL resp up pt tm2 upd =>
      cases upd with
      | none =>
        refine ⟨updateFields marked StatusCompleted resp.Text (outputLocationOf p key up) ""
          pt tm2, ?_, Or.inl rfl⟩
        exact tableAfterUpdate_key _ _ _ _ _ _ _ _ _ _ hm
      | some e => exact ⟨marked, by simpa [Path.table, Tail.table, tableAfterUpdate] using hm,
          Or.inr hms⟩

/-- C12: after a run of `ProcessFile` for `key` that returned nil, a second run
for the same key whose lookup returns the record as the first run left it makes
the lookup and no other call (no pre-signed URL, no transcription, no upload)
and returns nil; the record left by the first run is COMPLETED or IN_PROGRESS,
whether or not its final COMPLETED write took effect. -/
theorem ProcessFile_second_run (env : Env) (p : Processor) (bucket key : String) (w : World)
    (env₂ : Env) (p₂ : Processor) (bucket₂ : String) (w₂ : World)
    (h₁ : (ProcessFile env p bucket key w).1 = none)
    (h₂ : (GetTranscriptionItem env₂ key w₂).1
      = .ok ((ProcessFile env p bucket key w).2.table key)) :
    (ProcessFile env₂ p₂ bucket₂ key w₂).1 = none ∧
    (∀ e ∈ runEvents env₂ p₂ bucket₂ key w₂, e.isExternal = false) ∧
    ∃ item, (ProcessFile env p bucket key w).2.table key = some item ∧
      (item.Status = StatusCompleted ∨ item.Status = StatusInProgress) ∧
      runEvents env₂ p₂ bucket₂ key w₂ = [.GetTranscriptionItem key (.ok (some item))] := by
  obtain ⟨item, hitem, hst⟩ := ProcessFile_success_leaves_guarded env p bucket key w h₁
  rw [hitem] at h₂
  obtain ⟨hr, he⟩ := ProcessFile_guarded env₂ p₂ bucket₂ key w₂ item h₂ hst
  refine ⟨hr, ?_, item, hitem, hst, he⟩
  rw [he]
  simp [Event.isExternal, Event.isPresign, Event.isTranscribe, Event.isUpload]

theorem ProcessFile_second_run_witness :
    (ProcessFile (fixedEnv (.ok "https://presigned-url") (.ok testResponse) none true)
        testProcessor "test-bucket" "audio/test-file.aac" emptyWorld).1 = none ∧
    ((ProcessFile (fixedEnv (.ok "https://presigned-url") (.ok testResponse) none true)
        testProcessor "test-bucket" "audio/test-file.aac" emptyWorld).2.table
          "audio/test-file.aac").map (fun item => item.Status) = some "IN_PROGRESS" ∧
    (ProcessFile (fixedEnv (.ok "https://presigned-url") (.ok testResponse) none false)
        testProcessor "test-bucket" "audio/test-file.aac"
        (ProcessFile (fixedEnv (.ok "https://presigned-url") (.ok testResponse) none true)
          testProcessor "test-bucket" "audio/test-file.aac" emptyWorld).2).1 = none ∧
    (∀ e ∈ runEvents (fixedEnv (.ok "https://presigned-url") (.ok testResponse) none false)
        testProcessor "test-bucket" "audio/test-file.aac"
        (ProcessFile (fixedEnv (.ok "https://presigned-url") (.ok testResponse) none true)
          testProcessor "test-bucket" "audio/test-file.aac" emptyWorld).2,
      e.isExternal = false) :=
  have h := ProcessFile_second_run
    (fixedEnv (.ok "https://presigned-url") (.ok testResponse) none true)
    testProcessor "test-bucket" "audio/test-file.aac" emptyWorld
    (fixedEnv (.ok "https://presigned-url") (.ok testResponse) none false)
    testProcessor "test-bucket"
    (ProcessFile (fixedEnv (.ok "https://presigned-url") (.ok testResponse) none true)
      testProcessor "test-bucket" "audio/test-file.aac" emptyWorld).2
    (by decide) (by decide)
  ⟨by decide, by decide, h.1, h.2.1⟩

/-! ## The update request -/

/-- C13, as amended: for all arguments, the request built by
`UpdateTranscriptionItemStatus` sets Status to the given status and UpdatedAt to
the current time, sets TranscriptText, OutputLocation and ErrorMessage exactly
when the corresponding argument is non-empty, and sets ProcessingTime exactly
when its argument is greater than zero; it sets no other attribute, the names of
its two maps are exactly the placeholders of its update expression, and this
request is what a successful call applies to the table. -/
theorem UpdateTranscriptionItemStatus_request (env : Env) (tableName fileIdentifier : String)
    (status : TranscriptionStatus) (transcriptText outputLocation errorMessage : String)
    (processingTime : Int) (w : World) :
    (buildUpdateItemInput tableName fileIdentifier status transcriptText outputLocation
        errorMessage processingTime w.now).assignments
      = [("Status", AttributeValue.S status), ("UpdatedAt", AttributeValue.T w.now)]
        ++ (if transcriptText ≠ "" then [("TranscriptText", AttributeValue.S transcriptText)]
            else [])
        ++ (if outputLocation ≠ "" then [("OutputLocation", AttributeValue.S outputLocation)]
            else [])
        ++ (if errorMessage ≠ "" then [("ErrorMessage", AttributeValue.S errorMessage)]
            else [])
        ++ (if processingTime > 0 then [("ProcessingTime", AttributeValue.N processingTime)]
            else []) ∧
    (buildUpdateItemInput tableName fileIdentifier status transcriptText outputLocation
        errorMessage processingTime w.now).ExpressionAttributeNames.map Prod.fst
      = (buildUpdateItemInput tableName fileIdentifier status transcriptText outputLocation
          errorMessage processingTime w.now).UpdateExpression.map Prod.fst ∧
    (buildUpdateItemInput tableName fileIdentifier status transcriptText outputLocation
        errorMessage processingTime w.now).ExpressionAttributeValues.map Prod.fst
      = (buildUpdateItemInput tableName fileIdentifier status transcriptText outputLocation
          errorMessage processingTime w.now).UpdateExpression.map Prod.snd ∧
    (buildUpdateItemInput tableName fileIdentifier status transcriptText outputLocation
        errorMessage processingTime w.now).Key = fileIdentifier ∧
    (UpdateTranscriptionItemStatus env tableName fileIdentifier status transcriptText
        outputLocation errorMessage processingTime w).2.table
      = tableAfterUpdate w.table
          (UpdateTranscriptionItemStatus env tableName fileIdentifier status transcriptText
            outputLocation errorMessage processingTime w).1
          (buildUpdateItemInput tableName fileIdentifier status transcriptText outputLocation
            errorMessage processingTime w.now) := by
  refine ⟨?_, ?_, ?_, buildUpdateItemInput_Key .., UpdateTranscriptionItemStatus_table ..⟩
  · unfold buildUpdateItemInput UpdateItemInput.assignments
    by_cases h1 : transcriptText = "" <;> by_cases h2 : outputLocation = "" <;>
      by_cases h3 : errorMessage = "" <;> by_cases h4 : processingTime > 0 <;>
      simp [h1, h2, h3, h4, List.lookup, List.filterMap]
  · unfold buildUpdateItemInput
    by_cases h1 : transcriptText = "" <;> by_cases h2 : outputLocation = "" <;>
      by_cases h3 : errorMessage = "" <;> by_cases h4 : processingTime > 0 <;>
      simp [h1, h2, h3, h4]
  · unfold buildUpdateItemInput
    by_cases h1 : transcriptText = "" <;> by_cases h2 : outputLocation = "" <;>
      by_cases h3 : errorMessage = "" <;> by_cases h4 : processingTime > 0 <;>
      simp [h1, h2, h3, h4]

/-- C13 as stated fails: with a processing time of -1, which is not zero, the
request sets Status and UpdatedAt and no ProcessingTime. -/
theorem UpdateTranscriptionItemStatus_request_negative_time :
    (buildUpdateItemInput "test-table" "audio/test-file.aac" StatusCompleted "" "" "" (-1)
        7).assignments
      = [("Status", AttributeValue.S "COMPLETED"), ("UpdatedAt", AttributeValue.T 7)] := by
  decide

/-! ## Update or upsert -/

/-- C14, as amended: `UpdateTranscriptionItemStatus` is an upsert: the request
it issues carries no condition, and for an identifier that has no record in the
store a call that succeeds creates one, made of the identifier and the
attributes the request sets, and touches no other key; a call that fails
leaves the table as it was. -/
theorem UpdateTranscriptionItemStatus_upsert (env : Env) (tableName fileIdentifier : String)
    (status : TranscriptionStatus) (transcriptText outputLocation errorMessage : String)
    (processingTime : Int) (w : World) (habsent : w.table fileIdentifier = none) :
    (buildUpdateItemInput tableName fileIdentifier status transcriptText outputLocation
        errorMessage processingTime w.now).ConditionExpression = none ∧
    ((UpdateTranscriptionItemStatus env tableName fileIdentifier status transcriptText
        outputLocation errorMessage processingTime w).1 = none →
      (UpdateTranscriptionItemStatus env tableName fileIdentifier status transcriptText
          outputLocation errorMessage processingTime w).2.table fileIdentifier
        = some (updateFields (blankItem fileIdentifier) status transcriptText outputLocation
            errorMessage processingTime w.now) ∧
      ∀ k, k ≠ fileIdentifier →
        (UpdateTranscriptionItemStatus env tableName fileIdentifier status transcriptText
          outputLocation errorMessage processingTime w).2.table k = w.table k) ∧
    ((UpdateTranscriptionItemStatus env tableName fileIdentifier status transcriptText
        outputLocation errorMessage processingTime w).1 ≠ none →
      (UpdateTranscriptionItemStatus env tableName fileIdentifier status transcriptText
          outputLocation errorMessage processingTime w).2.table = w.table) := by
  refine ⟨buildUpdateItemInput_ConditionExpression .., ?_, ?_⟩
  · intro hok
    rw [UpdateTranscriptionItemStatus_table, hok]
    constructor
    · simp [tableAfterUpdate, UpdateItem_build, habsent]
    · intro k hk
      simp [tableAfterUpdate, UpdateItem_build, hk]
  · intro hfail
    rw [UpdateTranscriptionItemStatus_table]
    cases hres : (UpdateTranscriptionItemStatus env tableName fileIdentifier status
        transcriptText outputLocation errorMessage processingTime w).1 with
    | none => exact absurd hres hfail
    | some e => rfl

theorem UpdateTranscriptionItemStatus_upsert_witness :
    emptyWorld.table "audio/test-file.aac" = none ∧
    (UpdateTranscriptionItemStatus
        (fixedEnv (.ok "https://presigned-url") (.ok testResponse) none false) "test-table"
        "audio/test-file.aac" StatusFailed "" "" "Transcription API error: API error" 0
        emptyWorld).2.table "audio/test-file.aac"
      = some (updateFields (blankItem "audio/test-file.aac") StatusFailed "" ""
          "Transcription API error: API error" 0 0) :=
  ⟨rfl, ((UpdateTranscriptionItemStatus_upsert
      (fixedEnv (.ok "https://presigned-url") (.ok testResponse) none false) "test-table"
      "audio/test-file.aac" StatusFailed "" "" "Transcription API error: API error" 0
      emptyWorld rfl).2.1 (by decide)).1⟩

/-- C14 as stated fails: on an empty table a status update for
"audio/test-file.aac" that succeeds leaves a record under that key; the request
carries no condition, and the same request with the condition
`attribute_exists(FileIdentifier)` would have left the table empty. -/
theorem UpdateTranscriptionItemStatus_creates_record :
    (buildUpdateItemInput "test-table" "audio/test-file.aac" StatusFailed "" ""
        "Transcription API error: API error" 0 0).ConditionExpression = none ∧
    (UpdateTranscriptionItemStatus
        (fixedEnv (.ok "https://presigned-url") (.ok testResponse) none false) "test-table"
        "audio/test-file.aac" StatusFailed "" "" "Transcription API error: API error" 0
        emptyWorld).1 = none ∧
    (UpdateTranscriptionItemStatus
        (fixedEnv (.ok "https://presigned-url") (.ok testResponse) none false) "test-table"
        "audio/test-file.aac" StatusFailed "" "" "Transcription API error: API error" 0
        emptyWorld).2.table "audio/test-file.aac"
      = some
          { FileIdentifier := "audio/test-file.aac", Status := "FAILED", SourceBucket := "",
            SourceKey := "", ErrorMessage := "Transcription API error: API error" } ∧
    emptyWorld.table.UpdateItem
        { buildUpdateItemInput "test-table" "audio/test-file.aac" StatusFailed "" ""
            "Transcription API error: API error" 0 0 with
          ConditionExpression := some .keyExists } "audio/test-file.aac" = none := by
  decide

/-! ## The error message of a record -/

/-- C16, as amended: ErrorMessage is written only together with Status = FAILED
and is never cleared.  In every run each status update that carries a non-empty
error message has status FAILED, and the final record of the run either has
Status = FAILED or has the ErrorMessage the record had before the run: none
when no record was stored. -/
theorem ProcessFile_error_message (env : Env) (p : Processor) (bucket key : String)
    (w : World) :
    (∀ e ∈ runEvents env p bucket key w, ∀ msg,
      e.errorMessageWritten = some msg → msg ≠ "" → e.statusWritten = some StatusFailed) ∧
    (∀ item, finalRecord env p bucket key w = some item →
      item.Status = StatusFailed ∨
        ((w.table key = none → item.ErrorMessage = "") ∧
          ∀ old, w.table key = some old → item.ErrorMessage = old.ErrorMessage)) := by
  obtain ⟨path, hv, -, he, ht⟩ := ProcessFile_path env p bucket key w
  have hkeep : ∀ item, w.table key = some item →
      item.Status = StatusFailed ∨
        ((w.table key = none → item.ErrorMessage = "") ∧
          ∀ old, w.table key = some old → item.ErrorMessage = old.ErrorMessage) := by
    intro item hitem
    refine Or.inr ⟨fun hn => ?_, fun old hold => ?_⟩
    · rw [hn] at hitem
      cases hitem
    · rw [hold] at hitem
      cases hitem
      rfl
  unfold finalRecord
  rw [he, ht]
  constructor
  · intro e hmem msg hmsg hne
    cases path with
    | lookupFailed err =>
      simp only [Path.events, List.mem_singleton] at hmem
      subst hmem
      cases hmsg
    | skipped item =>
      simp only [Path.events, List.mem_singleton] at hmem
      subst hmem
      cases hmsg
    | markFailed existingItem err =>
      cases existingItem <;>
        simp only [Path.events, markEvent, List.mem_cons, List.mem_singleton,
          List.not_mem_nil, or_false] at hmem <;>
        rcases hmem with rfl | rfl <;>
        simp_all [Event.errorMessageWritten]
    | marked existingItem tm tail =>
      cases tail with
      | presignFailed err tm2 upd =>
        cases existingItem <;>
          simp only [Path.events, Tail.events, markEvent, List.cons_append, List.nil_append,
            List.mem_cons, List.mem_singleton, List.not_mem_nil, or_false] at hmem <;>
          rcases hmem with rfl | rfl | rfl | rfl <;>
          simp_all [Event.errorMessageWritten, Event.statusWritten]
      | transcribeFailed audioURL err tm2 upd =>
        cases existingItem <;>
          simp only [Path.events, Tail.events, markEvent, List.cons_append, List.nil_append,
            List.mem_cons, List.mem_singleton, List.not_mem_nil, or_false] at hmem <;>
          rcases hmem with rfl | rfl | rfl | rfl | rfl <;>
          simp_all [Event.errorMessageWritten, Event.statusWritten]
      | transcribed audioURL resp up pt tm2 upd =>
        cases existingItem <;> rcases up with _ | u <;>
          simp only [Path.events, Tail.events, markEvent, uploadEvents, List.cons_append,
            List.nil_append, List.append_nil, List.mem_cons, List.mem_singleton,
            List.not_mem_nil, or_false] at hmem <;>
          rcases hmem with rfl | rfl | rfl | rfl | rfl | rfl <;>
          simp_all [Event.errorMessageWritten, Event.statusWritten]
  · intro item hitem
    cases path with
    | lookupFailed err => exact hkeep item hitem
    | skipped existing => exact hkeep item hitem
    | markFailed existingItem err => exact hkeep item hitem
    | marked existingItem tm tail =>
      obtain ⟨marked, hm, -, hnone, hsome⟩ :=
        markTable_key p bucket key w.table existingItem tm hv.1
      have hmarked : (w.table key = none → marked.ErrorMessage = "") ∧
          ∀ old, w.table key = some old → marked.ErrorMessage = old.ErrorMessage :=
        ⟨fun hn => (hnone (hv.1.symm.trans hn)).2.2.1,
          fun old hold => (hsome old (hv.1.symm.trans hold)).2.2.1⟩
      cases upd_tail : tail with
      | presignFailed err tm2 upd =>
        subst upd_tail
        cases upd with
        | some e =>
          simp only [Path.table, Tail.table, tableAfterUpdate, hm, Option.some.injEq] at hitem
          subst hitem
          exact Or.inr hmarked
        | none =>
          simp only [Path.table, Tail.table] at hitem
          rw [tableAfterUpdate_key _ _ _ _ _ _ _ _ _ _ hm] at hitem
          cases hitem
          exact Or.inl rfl
      | transcribeFailed audioURL err tm2 upd =>
        subst upd_tail
        cases upd with
        | some e =>
          simp only [Path.table, Tail.table, tableAfterUpdate, hm, Option.some.injEq] at hitem
          subst hitem
          exact Or.inr hmarked
        | none =>
          simp only [Path.table, Tail.table] at hitem
          rw [tableAfterUpdate_key _ _ _ _ _ _ _ _ _ _ hm] at hitem
          cases hitem
          exact Or.inl rfl
      | transcribed audioURL resp up pt tm2 upd =>
        subst upd_tail
        cases upd with
        | some e =>
          simp only [Path.table, Tail.table, tableAfterUpdate, hm, Option.some.injEq] at hitem
          subst hitem
          exact Or.inr hmarked
        | none =>
          simp only [Path.table, Tail.table] at hitem
          rw [tableAfterUpdate_key _ _ _ _ _ _ _ _ _ _ hm] at hitem
          cases hitem
          refine Or.inr ?_
          simpa [updateFields] using hmarked

/-- C16 as stated fails, on a record reached by two runs from an empty table
with every write taking effect: the first run fails in `TranscribeAudio` and
leaves a FAILED record with an error message; the second run for the same key
succeeds and leaves a COMPLETED record that still holds that error message. -/
theorem ProcessFile_completed_keeps_error_message :
    (ProcessFile (fixedEnv (.ok "https://presigned-url") (.error (.new "API error")) none false)
        testProcessor "test-bucket" "audio/test-file.aac" emptyWorld).1
      = some (.wrap "transcription API error" (.new "API error")) ∧
    finalRecord (fixedEnv (.ok "https://presigned-url") (.error (.new "API error")) none false)
        testProcessor "test-bucket" "audio/test-file.aac" emptyWorld
      = some
          { FileIdentifier := "audio/test-file.aac", Status := "FAILED",
            SourceBucket := "test-bucket", SourceKey := "audio/test-file.aac",
            ErrorMessage := "Transcription API error: API error",
            CreatedAt := 1, UpdatedAt := 4 } ∧
    (ProcessFile (fixedEnv (.ok "https://presigned-url") (.ok testResponse) none false)
        testProcessor "test-bucket" "audio/test-file.aac"
        (ProcessFile
          (fixedEnv (.ok "https://presigned-url") (.error (.new "API error")) none false)
          testProcessor "test-bucket" "audio/test-file.aac" emptyWorld).2).1 = none ∧
    runEvents (fixedEnv (.ok "https://presigned-url") (.ok testResponse) none false)
        testProcessor "test-bucket" "audio/test-file.aac"
        (ProcessFile
          (fixedEnv (.ok "https://presigned-url") (.error (.new "API error")) none false)
          testProcessor "test-bucket" "audio/test-file.aac" emptyWorld).2
      = [.GetTranscriptionItem "audio/test-file.aac"
            (.ok (some
              { FileIdentifier := "audio/test-file.aac", Status := "FAILED",
                SourceBucket := "test-bucket", SourceKey := "audio/test-file.aac",
                ErrorMessage := "Transcription API error: API error",
                CreatedAt := 1, UpdatedAt := 4 })),
         .UpdateTranscriptionItemStatus "audio/test-file.aac" StatusInProgress "" "" "" 0 none,
         .GeneratePresignedURL "test-bucket" "audio/test-file.aac" 3600
            (.ok "https://presigned-url"),
         .TranscribeAudio "https://presigned-url" (.ok testResponse),
         .UploadText "test-output-bucket" "transcripts/test-file.txt"
            "This is a test transcription." none,
         .UpdateTranscriptionItemStatus "audio/test-file.aac" StatusCompleted
            "This is a test transcription."
            "s3://test-output-bucket/transcripts/test-file.txt" "" 4 none] ∧
    finalRecord (fixedEnv (.ok "https://presigned-url") (.ok testResponse) none false)
        testProcessor "test-bucket" "audio/test-file.aac"
        (ProcessFile
          (fixedEnv (.ok "https://presigned-url") (.error (.new "API error")) none false)
          testProcessor "test-bucket" "audio/test-file.aac" emptyWorld).2
      = some
          { FileIdentifier := "audio/test-file.aac", Status := "COMPLETED",
            SourceBucket := "test-bucket", SourceKey := "audio/test-file.aac",
            TranscriptText := "This is a test transcription.",
            OutputLocation := "s3://test-output-bucket/transcripts/test-file.txt",
            ErrorMessage := "Transcription API error: API error",
            CreatedAt := 1, UpdatedAt := 10, ProcessingTime := 4 } := by
  decide

/-! ## Processing a record again -/

/-- C17: when the lookup returns a record whose status is neither COMPLETED nor
IN_PROGRESS, the run makes no `CreateTranscriptionItem` call; its second call is
`UpdateTranscriptionItemStatus(key, IN_PROGRESS, "", "", "", 0)`, and that update,
when it succeeds, leaves under the key the record found with Status set to
IN_PROGRESS and UpdatedAt set to the time of the call, every other field
(SourceBucket, SourceKey, TranscriptText, OutputLocation, ErrorMessage,
ProcessingTime, CreatedAt) as it was; when it fails the table is as it was. -/
theorem ProcessFile_marks_existing (env : Env) (p : Processor) (bucket key : String)
    (w : World) (item : TranscriptionItem)
    (hget : (GetTranscriptionItem env key w).1 = .ok (some item))
    (hst : ¬ (item.Status = StatusCompleted ∨ item.Status = StatusInProgress)) :
    (∀ e ∈ runEvents env p bucket key w, e.isCreate = false) ∧
    (∃ rest,
      runEvents env p bucket key w
        = .GetTranscriptionItem key (.ok (some item)) ::
          .UpdateTranscriptionItemStatus key StatusInProgress "" "" "" 0
            (UpdateTranscriptionItemStatus env p.tableName key StatusInProgress "" "" "" 0
              (GetTranscriptionItem env key w).2).1 :: rest) ∧
    ((UpdateTranscriptionItemStatus env p.tableName key StatusInProgress "" "" "" 0
        (GetTranscriptionItem env key w).2).1 = none →
      (UpdateTranscriptionItemStatus env p.tableName key StatusInProgress "" "" "" 0
          (GetTranscriptionItem env key w).2).2.table key
        = some { item with Status := StatusInProgress,
                           UpdatedAt := (GetTranscriptionItem env key w).2.now }) ∧
    ((UpdateTranscriptionItemStatus env p.tableName key StatusInProgress "" "" "" 0
        (GetTranscriptionItem env key w).2).1 ≠ none →
      (UpdateTranscriptionItemStatus env p.tableName key StatusInProgress "" "" "" 0
          (GetTranscriptionItem env key w).2).2.table = w.table) := by
  have hfound := GetTranscriptionItem_found env key w (some item) hget
  have hw1 : (GetTranscriptionItem env key w).2
      = w.record env (.GetTranscriptionItem key (.ok (some item))) := by
    rw [GetTranscriptionItem_eq, hget]
  have htab1 : (GetTranscriptionItem env key w).2.table = w.table := by
    rw [hw1]
    rfl
  obtain ⟨path, -, -, he, -⟩ := ProcessFile_path env p bucket key w
  refine ⟨?_, ?_, ?_, ?_⟩
  · rw [he]
    rcases path_of_lookup env p bucket key w (some item) path hget he with
      ⟨it, hit, rfl⟩ | ⟨err, rfl⟩ | ⟨tm, tail, rfl⟩
    · simp [Path.events, Event.isCreate]
    · simp [Path.events, markEvent, Event.isCreate]
    · intro e hmem
      simp only [Path.events, markEvent, List.cons_append, List.nil_append, List.mem_cons]
        at hmem
      rcases hmem with rfl | rfl | hmem
      · rfl
      · rfl
      · exact Tail.events_isCreate p bucket key tail e hmem
  · unfold runEvents ProcessFile
    dsimp only
    rw [GetTranscriptionItem_eq, hget]
    dsimp only
    rw [if_neg hst, ← hw1]
    have hut := UpdateTranscriptionItemStatus_trace env p.tableName key StatusInProgress
      "" "" "" 0 (GetTranscriptionItem env key w).2
    rcases hU : UpdateTranscriptionItemStatus env p.tableName key StatusInProgress
      "" "" "" 0 (GetTranscriptionItem env key w).2 with ⟨r, w2⟩
    rw [hU] at hut
    dsimp only at hut
    cases r with
    | some err =>
      refine ⟨[], ?_⟩
      dsimp only
      rw [hut, hw1]
      simp [World.record]
    | none =>
      obtain ⟨tail, -, -, h1, -⟩ := transcribeFile_path env p bucket key w.now w2
      refine ⟨tail.events p bucket key, ?_⟩
      dsimp only
      rw [h1, hut, hw1]
      simp [World.record]
  · intro hok
    rw [UpdateTranscriptionItemStatus_table, hok, htab1]
    rw [tableAfterUpdate_key _ _ _ _ _ _ _ _ _ _ hfound]
    simp [updateFields]
  · intro hfail
    rw [UpdateTranscriptionItemStatus_table, htab1]
    cases hres : (UpdateTranscriptionItemStatus env p.tableName key StatusInProgress
        "" "" "" 0 (GetTranscriptionItem env key w).2).1 with
    | none => exact absurd hres hfail
    | some e => rfl

theorem ProcessFile_marks_existing_witness :
    runEvents (fixedEnv (.error (.new "AccessDenied")) (.ok testResponse) none false)
        testProcessor "test-bucket" "audio/test-file.aac" (worldWith staleItem)
      = [.GetTranscriptionItem "audio/test-file.aac" (.ok (some staleItem)),
         .UpdateTranscriptionItemStatus "audio/test-file.aac" StatusInProgress "" "" "" 0 none,
         .GeneratePresignedURL "test-bucket" "audio/test-file.aac" 3600
            (.error (.new "AccessDenied")),
         .UpdateTranscriptionItemStatus "audio/test-file.aac" StatusFailed "" ""
            "Failed to generate pre-signed URL: AccessDenied" 0 none] ∧
    (UpdateTranscriptionItemStatus
        (fixedEnv (.error (.new "AccessDenied")) (.ok testResponse) none false)
        testProcessor.tableName "audio/test-file.aac" StatusInProgress "" "" "" 0
        (GetTranscriptionItem
          (fixedEnv (.error (.new "AccessDenied")) (.ok testResponse) none false)
          "audio/test-file.aac" (worldWith staleItem)).2).2.table "audio/test-file.aac"
      = some { staleItem with Status := StatusInProgress, UpdatedAt := 1 } :=
  ⟨by decide,
    (ProcessFile_marks_existing
      (fixedEnv (.error (.new "AccessDenied")) (.ok testResponse) none false)
      testProcessor "test-bucket" "audio/test-file.aac" (worldWith staleItem) staleItem
      (by decide) (by decide)).2.2.1 (by decide)⟩

/-! ## Configuration -/

/-- C18: `LoadConfig` fails exactly when DYNAMODB_TABLE_NAME or
ELEVENLABS_SECRET_NAME is unset or empty; otherwise it returns the config whose
table name, secret name and output bucket are the values of the environment,
whose region is AWS_REGION, or "us-east-1" when that is empty, and whose base
URL is ELEVENLABS_BASE_URL, or "https://api.elevenlabs.io/v1" when that is
empty. -/
theorem LoadConfig_spec (environ : Environ) :
    ((∃ err, LoadConfig environ = .error err) ↔
      ((environ "DYNAMODB_TABLE_NAME" = none ∨ environ "DYNAMODB_TABLE_NAME" = some "") ∨
        (environ "ELEVENLABS_SECRET_NAME" = none ∨
          environ "ELEVENLABS_SECRET_NAME" = some ""))) ∧
    (¬ ((environ "DYNAMODB_TABLE_NAME" = none ∨ environ "DYNAMODB_TABLE_NAME" = some "") ∨
        (environ "ELEVENLABS_SECRET_NAME" = none ∨
          environ "ELEVENLABS_SECRET_NAME" = some "")) →
      LoadConfig environ
        = .ok
            { AWSRegion :=
                if Getenv environ "AWS_REGION" = "" then "us-east-1"
                else Getenv environ "AWS_REGION"
              DynamoDBTableName := Getenv environ "DYNAMODB_TABLE_NAME"
              ElevenLabsSecretName := Getenv environ "ELEVENLABS_SECRET_NAME"
              OutputS3Bucket := Getenv environ "OUTPUT_S3_BUCKET"
              ElevenLabsBaseURL :=
                if Getenv environ "ELEVENLABS_BASE_URL" = "" then "https://api.elevenlabs.io/v1"
                else Getenv environ "ELEVENLABS_BASE_URL" }) := by
  have hempty : ∀ name, Getenv environ name = "" ↔
      (environ name = none ∨ environ name = some "") := by
    intro name
    unfold Getenv
    cases environ name <;> simp
  have ht := hempty "DYNAMODB_TABLE_NAME"
  have hs := hempty "ELEVENLABS_SECRET_NAME"
  rw [← ht, ← hs]
  unfold LoadConfig
  by_cases h1 : Getenv environ "DYNAMODB_TABLE_NAME" = ""
  · simp [h1]
  · by_cases h2 : Getenv environ "ELEVENLABS_SECRET_NAME" = ""
    · simp [h1, h2]
    · simp [h1, h2]

theorem LoadConfig_spec_witness :
    LoadConfig testEnviron
      = .ok
          { AWSRegion := "us-west-2", DynamoDBTableName := "test-table",
            ElevenLabsSecretName := "test-secret", OutputS3Bucket := "test-output-bucket",
            ElevenLabsBaseURL := "https://test-api.elevenlabs.io/v1" } ∧
    LoadConfig (fun key => if key = "DYNAMODB_TABLE_NAME" then some "test-table"
        else if key = "ELEVENLABS_SECRET_NAME" then some "test-secret" else none)
      = .ok
          { AWSRegion := "us-east-1", DynamoDBTableName := "test-table",
            ElevenLabsSecretName := "test-secret", OutputS3Bucket := "",
            ElevenLabsBaseURL := "https://api.elevenlabs.io/v1" } ∧
    (∃ err, LoadConfig (fun _ => none) = .error err) :=
  ⟨((LoadConfig_spec testEnviron).2 (by decide)).trans (by decide), by decide,
    (LoadConfig_spec (fun _ => none)).1.mpr (Or.inl (Or.inl rfl))⟩

/-! ## The transcription client -/

/-- C19, as amended: for every HTTP response received by `TranscribeAudio` (the
request was built and sent, and `httpClient.Do` returned the response): a result
is returned exactly when the body is read, the status is 200, the body parses
and its success flag is true, and the result is then the parsed body, with its
ID and Text; when the body is read, the status is 200 and the parsed success
flag is false the error is "ElevenLabs API returned error: " followed by the
error text of the response; when the body is read and the status is not 200 the
error is "ElevenLabs API returned non-200 status code: <status>, body: <body>";
when the body cannot be read the error is "failed to read response body"
wrapping the read error, whatever the status. -/
theorem TranscribeAudio_response (net : Network) (c : Client) (audioURL jsonBody : String)
    (resp : HTTPResponse)
    (hmarshal : net.jsonMarshal { AudioURL := audioURL } = .ok jsonBody)
    (hnew : net.newRequest "POST" (c.baseURL ++ "/transcribe") jsonBody = none)
    (hdo : net.httpDo
      { Method := "POST", URL := c.baseURL ++ "/transcribe",
        Header := [("Content-Type", "application/json"), ("xi-api-key", c.apiKey)],
        Body := jsonBody } = .ok resp) :
    (∀ result, c.TranscribeAudio net audioURL = .ok result ↔
      ∃ body, resp.Body = .ok body ∧ resp.StatusCode = 200 ∧
        net.jsonUnmarshal body = .ok result ∧ result.Success = true) ∧
    (∀ body parsed, resp.Body = .ok body → resp.StatusCode = 200 →
      net.jsonUnmarshal body = .ok parsed → parsed.Success = false →
        c.TranscribeAudio net audioURL
            = .error (.new ("ElevenLabs API returned error: " ++ parsed.Error)) ∧
          parsed.Error.data
            <:+ (GoError.new ("ElevenLabs API returned error: " ++ parsed.Error)).Error.data) ∧
    (∀ body, resp.Body = .ok body → resp.StatusCode ≠ 200 →
      c.TranscribeAudio net audioURL
        = .error (.new ("ElevenLabs API returned non-200 status code: " ++
            toString resp.StatusCode ++ ", body: " ++ body))) ∧
    (∀ err, resp.Body = .error err →
      c.TranscribeAudio net audioURL = .error (.wrap "failed to read response body" err)) := by
  have hread : ∀ body, resp.Body = .ok body → c.TranscribeAudio net audioURL
      = if resp.StatusCode ≠ 200 then
          .error (.new ("ElevenLabs API returned non-200 status code: " ++
            toString resp.StatusCode ++ ", body: " ++ body))
        else
          match net.jsonUnmarshal body with
          | .error err => .error (.wrap "failed to unmarshal response" err)
          | .ok response =>
            if !response.Success then
              .error (.new ("ElevenLabs API returned error: " ++ response.Error))
            else .ok response := by
    intro body hbody
    unfold Client.TranscribeAudio Client.sendTranscriptionRequest
    simp only [hmarshal, hnew, hdo, hbody]
  have hunread : ∀ err, resp.Body = .error err →
      c.TranscribeAudio net audioURL = .error (.wrap "failed to read response body" err) := by
    intro err hbody
    unfold Client.TranscribeAudio Client.sendTranscriptionRequest
    simp only [hmarshal, hnew, hdo, hbody]
  refine ⟨?_, ?_, ?_, hunread⟩
  · intro result
    cases hbody : resp.Body with
    | error err =>
      rw [hunread err hbody]
      simp
    | ok body =>
      rw [hread body hbody]
      simp only [Except.ok.injEq, exists_eq_left']
      by_cases hs : resp.StatusCode = 200
      · simp only [hs, ne_eq, not_true_eq_false, if_false, true_and]
        cases hu : net.jsonUnmarshal body with
        | error err => simp
        | ok response =>
          by_cases hsucc : response.Success = true
          · simp only [hsucc, Bool.not_true, Bool.false_eq_true, if_false, Except.ok.injEq]
            constructor
            · rintro rfl
              exact ⟨rfl, hsucc⟩
            · rintro ⟨h, -⟩
              exact h
          · have hfalse : response.Success = false := by simpa using hsucc
            simp only [hfalse, Bool.not_false, if_true, Except.ok.injEq]
            constructor
            · intro h
              cases h
            · rintro ⟨rfl, h⟩
              rw [hfalse] at h
              cases h
      · simp [hs]
  · intro body parsed hbody hs hu hsucc
    rw [hread body hbody]
    refine ⟨?_, ?_⟩
    · simp [hs, hu, hsucc]
    · simp only [GoError.Error, String.data_append]
      exact List.suffix_append _ _
  · intro body hbody hs
    rw [hread body hbody]
    simp [hs]

theorem TranscribeAudio_response_witness :
    testClient.TranscribeAudio
        (fixedNetwork 200 "ok-body"
          (.ok { ID := "test-id", Text := "Hello, world!", Success := true }))
        "https://example.com/audio.aac"
      = .ok { ID := "test-id", Text := "Hello, world!", Success := true } ∧
    testClient.TranscribeAudio
        (fixedNetwork 200 "error-body"
          (.ok { ID := "", Text := "", Error := "Invalid audio format", Success := false }))
        "https://example.com/invalid.aac"
      = .error (.new "ElevenLabs API returned error: Invalid audio format") ∧
    testClient.TranscribeAudio
        (fixedNetwork 503 "Service Unavailable"
          (.ok { ID := "test-id", Text := "Hello, world!", Success := true }))
        "https://example.com/audio.aac"
      = .error (.new
          "ElevenLabs API returned non-200 status code: 503, body: Service Unavailable") :=
  have h := TranscribeAudio_response
    (fixedNetwork 200 "ok-body"
      (.ok { ID := "test-id", Text := "Hello, world!", Success := true }))
    testClient "https://example.com/audio.aac"
    "\x7b\"audio_url\":\"https://example.com/audio.aac\"\x7d"
    { StatusCode := 200, Body := .ok "ok-body" } (by decide) rfl rfl
  ⟨(h.1 { ID := "test-id", Text := "Hello, world!", Success := true }).mpr
      ⟨"ok-body", rfl, rfl, rfl, rfl⟩, by decide, by decide⟩

/-- C19 as stated fails: the response has status 503 and a body that cannot be
read; `TranscribeAudio` fails with "failed to read response body: unexpected
EOF", an error that carries neither the status code nor a body. -/
theorem TranscribeAudio_unreadable_body :
    (unreadableNetwork 503 (.new "unexpected EOF")).httpDo
        { Method := "POST", URL := testClient.baseURL ++ "/transcribe",
          Header := [("Content-Type", "application/json"), ("xi-api-key", testClient.apiKey)],
          Body := "\x7b\"audio_url\":\"https://example.com/audio.aac\"\x7d" }
      = .ok { StatusCode := 503, Body := .error (.new "unexpected EOF") } ∧
    testClient.TranscribeAudio (unreadableNetwork 503 (.new "unexpected EOF"))
        "https://example.com/audio.aac"
      = .error (.wrap "failed to read response body" (.new "unexpected EOF")) ∧
    (GoError.wrap "failed to read response body" (.new "unexpected EOF")).Error
      = "failed to read response body: unexpected EOF" ∧
    ¬ ("503".data <:+:
      (GoError.wrap "failed to read response body" (.new "unexpected EOF")).Error.data) :=
  ⟨rfl, by decide, by decide, by decide⟩

/-! ## Two keys, one output key -/

/-- The output key of a key whose base name is `stem` followed by its
extension. -/
theorem outputKey_of_stem (key stem : String) (h : stem ++ Ext (Base key) = Base key) :
    outputKey key = "transcripts/" ++ stem ++ ".txt" := by
  unfold outputKey
  have hd : (Base key).data = stem.data ++ (Ext (Base key)).data := by
    rw [← String.data_append, h]
  have hs : (⟨(Base key).data.take ((Base key).data.length - (Ext (Base key)).data.length)⟩
      : String) = stem := by
    apply String.ext
    rw [hd]
    simp
  simp only [hs]

/-- Every upload of a run goes to the output key of the key of the run. -/
theorem upload_key (env : Env) (p : Processor) (bucket key : String) (w : World)
    (b k c : String) (r : Option GoError)
    (h : Event.UploadText b k c r ∈ runEvents env p bucket key w) :
    b = p.outputBucket ∧ k = outputKey key := by
  obtain ⟨path, -, -, he, -⟩ := ProcessFile_path env p bucket key w
  rw [he] at h
  cases path with
  | lookupFailed err => simp [Path.events] at h
  | skipped item => simp [Path.events] at h
  | markFailed existingItem err => cases existingItem <;> simp [Path.events, markEvent] at h
  | marked existingItem tm tail =>
    cases tail with
    | presignFailed err tm2 upd =>
      cases existingItem <;> simp [Path.events, Tail.events, markEvent] at h
    | transcribeFailed audioURL err tm2 upd =>
      cases existingItem <;> simp [Path.events, Tail.events, markEvent] at h
    | transcribed audioURL resp up pt tm2 upd =>
      rcases up with _ | u
      · cases existingItem <;>
          simp [Path.events, Tail.events, markEvent, uploadEvents] at h
      · cases existingItem <;>
          simp [Path.events, Tail.events, markEvent, uploadEvents] at h <;>
          exact ⟨h.1, h.2.1⟩

/-- C21: the output key is not injective in the source key.  The distinct keys
"a/x.mp3" and "b/x.wav" are both accepted by `isValidAudioFile` and both have
the output key "transcripts/x.txt"; the output key of a key is "transcripts/",
the base name of the key without its final extension, ".txt", so two keys with
the same such name have the same output key, and every upload of a run of
`ProcessFile` goes to the output key of its key.  Processing the two keys one
after the other uploads twice to "transcripts/x.txt" in the output bucket, and
the object there, first the transcript of "a/x.mp3", is then the transcript of
"b/x.wav". -/
theorem outputKey_not_injective (unicodeLower : Char → Char) :
    ("a/x.mp3" ≠ "b/x.wav" ∧
      isValidAudioFile unicodeLower "a/x.mp3" = true ∧
      isValidAudioFile unicodeLower "b/x.wav" = true ∧
      outputKey "a/x.mp3" = "transcripts/x.txt" ∧
      outputKey "b/x.wav" = "transcripts/x.txt") ∧
    (∀ key stem, stem ++ Ext (Base key) = Base key →
      outputKey key = "transcripts/" ++ stem ++ ".txt") ∧
    (∀ key₁ key₂ stem, stem ++ Ext (Base key₁) = Base key₁ →
      stem ++ Ext (Base key₂) = Base key₂ → outputKey key₁ = outputKey key₂) ∧
    (∀ (env : Env) (p : Processor) (bucket key : String) (w : World) b k c r,
      Event.UploadText b k c r ∈ runEvents env p bucket key w →
        b = p.outputBucket ∧ k = outputKey key) ∧
    (Event.UploadText "test-output-bucket" "transcripts/x.txt"
          "Transcript of https://test-bucket/a/x.mp3" none
        ∈ runEvents echoEnv testProcessor "test-bucket" "a/x.mp3" emptyWorld ∧
      Event.UploadText "test-output-bucket" "transcripts/x.txt"
          "Transcript of https://test-bucket/b/x.wav" none
        ∈ runEvents echoEnv testProcessor "test-bucket" "b/x.wav"
            (ProcessFile echoEnv testProcessor "test-bucket" "a/x.mp3" emptyWorld).2 ∧
      storedObjects
          (ProcessFile echoEnv testProcessor "test-bucket" "a/x.mp3" emptyWorld).2.trace
          "test-output-bucket" "transcripts/x.txt"
        = some "Transcript of https://test-bucket/a/x.mp3" ∧
      storedObjects
          (ProcessFile echoEnv testProcessor "test-bucket" "b/x.wav"
            (ProcessFile echoEnv testProcessor "test-bucket" "a/x.mp3" emptyWorld).2).2.trace
          "test-output-bucket" "transcripts/x.txt"
        = some "Transcript of https://test-bucket/b/x.wav") := by
  refine ⟨⟨by decide, rfl, rfl, by decide, by decide⟩, outputKey_of_stem, ?_,
    upload_key, by decide⟩
  intro key₁ key₂ stem h₁ h₂
  rw [outputKey_of_stem key₁ stem h₁, outputKey_of_stem key₂ stem h₂]

theorem outputKey_not_injective_witness :
    "x" ++ Ext (Base "a/x.mp3") = Base "a/x.mp3" ∧
    "x" ++ Ext (Base "b/x.wav") = Base "b/x.wav" ∧
    outputKey "a/x.mp3" = outputKey "b/x.wav" ∧
    (finalRecord echoEnv testProcessor "test-bucket" "a/x.mp3" emptyWorld).map
        (fun item => item.OutputLocation)
      = some "s3://test-output-bucket/transcripts/x.txt" ∧
    (finalRecord echoEnv testProcessor "test-bucket" "b/x.wav"
        (ProcessFile echoEnv testProcessor "test-bucket" "a/x.mp3" emptyWorld).2).map
        (fun item => item.OutputLocation)
      = some "s3://test-output-bucket/transcripts/x.txt" :=
  ⟨by decide, by decide,
    (outputKey_not_injective id).2.2.1 "a/x.mp3" "b/x.wav" "x" (by decide) (by decide),
    by decide, by decide⟩

end Transcription
